import Mathlib

/-!
Verification of the report-parsing subsystem of `gaussian_v1.py`:
`parse_xyz_content`, `extract_optimized_structure`, `extract_fchk_data` and
`parse_multiwfn_surface_analysis`, together with the Python string, number
and regular-expression primitives they rely on.

Text is modelled as `List Char`.  Python `float(...)` values are kept as
their source tokens (a `List Char` that passed the `float` grammar): none of
the verified functions performs arithmetic on a parsed float, it only stores
and selects them, so keeping the token preserves all observable behaviour
while avoiding floating-point semantics.  Python `int(...)` values, which
are used arithmetically, are parsed to `ℤ`.  Exceptions are modelled by
`Option`/`none`.
-/

set_option maxHeartbeats 1000000

/-- Text is a list of characters. -/
abbrev LC := List Char

/-- Coerce a string literal to the `List Char` text model. -/
def lc (s : String) : LC := s.data

/-! ## Python string primitives -/

/-- The characters Python `str.strip()` / `str.split()` treat as whitespace
(ASCII fragment of the Python whitespace set). -/
def isPySpace (c : Char) : Bool :=
  c = ' ' || c = '\t' || c = '\n' || c = '\r' || c = '\x0b' || c = '\x0c'

/-- Python `str.strip()`: remove leading and trailing whitespace. -/
def pyStrip (l : LC) : LC :=
  ((l.dropWhile isPySpace).reverse.dropWhile isPySpace).reverse

/-- Accumulator worker for `pySplitWs`; `acc` is the current word reversed. -/
def splitWsAux : LC → LC → List LC
  | [], acc => if acc.isEmpty then [] else [acc.reverse]
  | c :: rest, acc =>
    if isPySpace c then
      if acc.isEmpty then splitWsAux rest [] else acc.reverse :: splitWsAux rest []
    else splitWsAux rest (c :: acc)

/-- Python `str.split()` with no argument: split on whitespace runs,
discarding empty fields. -/
def pySplitWs (l : LC) : List LC := splitWsAux l []

/-- Accumulator worker for `splitNl`. -/
def splitNlAux : LC → LC → List LC
  | [], acc => [acc.reverse]
  | c :: rest, acc =>
    if c = '\n' then acc.reverse :: splitNlAux rest [] else splitNlAux rest (c :: acc)

/-- Python `str.split('\n')`: split on every newline; an empty string yields
one empty field, matching Python. -/
def splitNl (l : LC) : List LC := splitNlAux l []

/-- Does `n` occur as a prefix of `h`? -/
def isPre : LC → LC → Bool
  | [], _ => true
  | _ :: _, [] => false
  | a :: as, b :: bs => a = b && isPre as bs

/-- Python `needle in hay` substring containment. -/
def containsSub : LC → LC → Bool
  | n, [] => isPre n []
  | n, c :: rest => isPre n (c :: rest) || containsSub n rest

/-! ## Python numeric-literal primitives -/

/-- Consume a Python `digitpart` (digits with optional single underscores
between digits); returns the rest of the input, or `none` when the input
does not start with a digit. -/
def digAfter : LC → LC
  | '_' :: c :: rest => if c.isDigit then digAfter rest else '_' :: c :: rest
  | c :: rest => if c.isDigit then digAfter rest else c :: rest
  | [] => []

/-- Consume a leading digit then the remaining `digitpart`. -/
def digRun : LC → Option LC
  | c :: rest => if c.isDigit then some (digAfter rest) else none
  | [] => none

/-- Case-insensitive `inf` / `infinity` / `nan`, accepted by Python
`float(...)`. -/
def isInfNan (s : LC) : Bool :=
  match s.map Char.toLower with
  | ['i', 'n', 'f'] => true
  | ['i', 'n', 'f', 'i', 'n', 'i', 't', 'y'] => true
  | ['n', 'a', 'n'] => true
  | _ => false

/-- Exponent suffix of a Python float literal: empty, or `e`/`E`, optional
sign, and a digitpart consuming the whole rest. -/
def expPart : LC → Bool
  | [] => true
  | e :: rest =>
    if e = 'e' || e = 'E' then
      match (match rest with
             | '+' :: r => r
             | '-' :: r => r
             | r => r) with
      | r' => (match digRun r' with
               | some [] => true
               | _ => false)
    else false

/-- Unsigned numeric part of a Python float literal:
`digitpart ['.' [digitpart]] [exp]` or `'.' digitpart [exp]`. -/
def floatNum (s : LC) : Bool :=
  match digRun s with
  | some s1 =>
    (match s1 with
     | '.' :: s2 =>
       (match digRun s2 with
        | some s3 => expPart s3
        | none => expPart s2)
     | _ => expPart s1)
  | none =>
    (match s with
     | '.' :: s2 =>
       (match digRun s2 with
        | some s3 => expPart s3
        | none => false)
     | _ => false)

/-- Strip one leading sign character. -/
def stripSign : LC → LC
  | '+' :: r => r
  | '-' :: r => r
  | r => r

/-- Does Python `float(tok)` succeed?  Models the CPython grammar:
optional surrounding whitespace, optional sign, then `inf`/`infinity`/`nan`
(case-insensitive) or a decimal literal with optional exponent. -/
def isPyFloat (tok : LC) : Bool :=
  match pyStrip tok with
  | [] => false
  | s => isInfNan (stripSign s) || floatNum (stripSign s)

/-- Value of a run of decimal digits (underscores skipped). -/
def digitsVal (s : LC) : ℕ :=
  s.foldl (fun a c => if c.isDigit then a * 10 + (c.toNat - '0'.toNat) else a) 0

/-- Python `int(tok)` in base 10: optional surrounding whitespace, optional
sign, digitpart; `none` models `ValueError`. -/
def pyInt (tok : LC) : Option ℤ :=
  match pyStrip tok with
  | [] => none
  | s =>
    match s, digRun (stripSign s) with
    | '-' :: _, some [] => some (-(digitsVal (stripSign s) : ℤ))
    | _, some [] => some (digitsVal (stripSign s) : ℤ)
    | _, _ => none

/-- Python `str.isdigit()` (ASCII fragment): nonempty and all digits. -/
def pyIsDigitStr (l : LC) : Bool := !l.isEmpty && l.all Char.isDigit

/-- Python sequence indexing `l[i]` with negative-index support;
`none` models `IndexError`. -/
def pyIndexL {α : Type} (l : List α) (i : ℤ) : Option α :=
  if 0 ≤ i then l.get? i.toNat
  else if (-i).toNat ≤ l.length then l.get? (l.length - (-i).toNat)
  else none

example : pySplitWs (lc "  a  bc d ") = [lc "a", lc "bc", lc "d"] := by decide
example : splitNl (lc "a\n\nb") = [lc "a", lc "", lc "b"] := by decide
example : splitNl (lc "") = [lc ""] := by decide
example : containsSub (lc "bc") (lc "abcd") = true := by decide
example : containsSub (lc "bd") (lc "abcd") = false := by decide
example : isPyFloat (lc "1.0") = true := by decide
example : isPyFloat (lc "-1.5e-3") = true := by decide
example : isPyFloat (lc ".") = false := by decide
example : isPyFloat (lc "1.") = true := by decide
example : isPyFloat (lc ".5") = true := by decide
example : isPyFloat (lc "inf") = true := by decide
example : isPyFloat (lc "1.2.3") = false := by decide
example : isPyFloat (lc "x") = false := by decide
example : isPyFloat (lc "1_000.5") = true := by decide
example : isPyFloat (lc "1_") = false := by decide
example : pyInt (lc "42") = some 42 := by decide
example : pyInt (lc "-7") = some (-7) := by decide
example : pyInt (lc "3.5") = none := by decide
example : pyInt (lc "b") = none := by decide
example : pyIsDigitStr (lc "23") = true := by decide
example : pyIsDigitStr (lc "2a") = false := by decide
example : pyIndexL [10, 20, 30] (-1) = some 30 := by decide
example : pyIndexL [10, 20, 30] (-4) = none := by decide
example : pyStrip (lc "  ab ") = lc "ab" := by decide

/-! ## AtomListParser: `parse_xyz_content` -/

/-- An atom produced by `parse_xyz_content`: the symbol field and the three
coordinate tokens (Python stores `float(...)` of the tokens; the tokens are
kept, see the file header). -/
structure XAtom where
  symbol : LC
  x : LC
  y : LC
  z : LC
  deriving DecidableEq

/-- Coordinate triple of an atom, in order. -/
def coordsOf (a : XAtom) : List LC := [a.x, a.y, a.z]

/-- One iteration of the `parse_xyz_content` line loop: skip blank lines,
require at least 4 whitespace fields, parse fields 2–4 with `float`
(`ValueError` silently skips the line), keep field 1 as the symbol. -/
def lineAtom (l : LC) : Option XAtom :=
  if (pyStrip l).isEmpty then none
  else if 4 ≤ (pySplitWs l).length then
    if (((pySplitWs l).drop 1).take 3).all isPyFloat then
      some ⟨(pySplitWs l).getD 0 [], (pySplitWs l).getD 1 [],
            (pySplitWs l).getD 2 [], (pySplitWs l).getD 3 []⟩
    else none
  else none

/-- The `for line in lines[start_index:]` accumulation loop. -/
def xyzLoop : List LC → List XAtom
  | [] => []
  | l :: rest =>
    match lineAtom l with
    | none => xyzLoop rest
    | some a => a :: xyzLoop rest

/-- Start index of the line loop: 2 when the first line `isdigit()`,
otherwise 0 (`len(lines) > 0 and lines[0].isdigit()`). -/
def xyzStart : List LC → ℕ
  | [] => 0
  | l0 :: _ => if pyIsDigitStr l0 then 2 else 0

/-- Embedding of `parse_xyz_content` (gaussian_v1.py lines 12–46): strip the
content, split into lines, optionally skip a count line plus comment line,
then run the tolerant per-line loop. -/
def parse_xyz_content (content : LC) : List XAtom :=
  xyzLoop ((splitNl (pyStrip content)).drop (xyzStart (splitNl (pyStrip content))))

example : parse_xyz_content (lc "2\ncomment\nC 0.0 0.0 0.0\nO 0.0 0.0 1.2\n") =
    [⟨lc "C", lc "0.0", lc "0.0", lc "0.0"⟩, ⟨lc "O", lc "0.0", lc "0.0", lc "1.2"⟩] := by
  decide

example : parse_xyz_content (lc "C 1.0 2.0 3.0 x") =
    [⟨lc "C", lc "1.0", lc "2.0", lc "3.0"⟩] := by decide

/-- The trailing three whitespace fields of a line (the fields claim C5
says supply the coordinates). -/
def trailing3 (parts : List LC) : List LC := parts.drop (parts.length - 3)

/-- The per-line rule stated by claim C5: a line yields an atom iff it has
at least 4 whitespace fields and its trailing three fields parse as floats,
the coordinates being those trailing three fields. -/
def lineAtomClaimed (l : LC) : Option XAtom :=
  if 4 ≤ (pySplitWs l).length ∧ (trailing3 (pySplitWs l)).all isPyFloat = true then
    some ⟨(pySplitWs l).getD 0 [], (trailing3 (pySplitWs l)).getD 0 [],
      (trailing3 (pySplitWs l)).getD 1 [], (trailing3 (pySplitWs l)).getD 2 []⟩
  else none

/-- Claim C5 as stated: every processed line yields an atom exactly under
the trailing-three-fields rule, other lines being skipped silently while
parsing continues. -/
def claimC5 : Prop := ∀ content : LC,
  parse_xyz_content content =
    ((splitNl (pyStrip content)).drop
      (xyzStart (splitNl (pyStrip content)))).filterMap lineAtomClaimed

lemma all_space_of_strip_nil {l : LC} (h : pyStrip l = []) :
    ∀ c ∈ l, isPySpace c = true := by
  intro c hc
  unfold pyStrip at h
  rw [List.reverse_eq_nil_iff, List.dropWhile_eq_nil_iff] at h
  rcases List.mem_append.1
      ((List.takeWhile_append_dropWhile (p := isPySpace) (l := l)) ▸ hc) with h1 | h1
  · exact List.mem_takeWhile_imp h1
  · exact h c (List.mem_reverse.2 h1)

lemma splitWsAux_nil_of_all_space {l : LC} (h : ∀ c ∈ l, isPySpace c = true) :
    splitWsAux l [] = [] := by
  induction l with
  | nil => rfl
  | cons c rest ih =>
    simp only [splitWsAux, h c (List.mem_cons_self c rest), if_true, List.isEmpty_nil]
    exact ih fun d hd => h d (List.mem_cons_of_mem c hd)

lemma splitWs_nil_of_strip_nil {l : LC} (h : pyStrip l = []) : pySplitWs l = [] :=
  splitWsAux_nil_of_all_space (all_space_of_strip_nil h)

/-- C5: the claim fails on the code.  The line `"C 1.0 2.0 3.0 x"` has five
whitespace fields; its trailing three fields are `2.0 3.0 x`, which do not
all parse as floats, yet the code accepts the line (it parses fields 2–4,
not the trailing three). -/
theorem C5_counterexample : ¬ claimC5 := by
  intro h
  exact absurd (h (lc "C 1.0 2.0 3.0 x")) (by decide)

lemma take3_drop1 {α : Type} (parts : List α) (d0 : α) (h : 4 ≤ parts.length) :
    (parts.drop 1).take 3 = [parts.getD 1 d0, parts.getD 2 d0, parts.getD 3 d0] := by
  match parts with
  | a :: b :: c :: d :: rest => simp [List.getD]
  | [] | [_] | [_, _] | [_, _, _] => simp at h

lemma xyzLoop_eq_filterMap (ls : List LC) : xyzLoop ls = ls.filterMap lineAtom := by
  induction ls with
  | nil => rfl
  | cons l rest ih =>
    simp only [xyzLoop, List.filterMap_cons]
    cases lineAtom l <;> simp [ih]

/-- C5 (amended): a processed line yields an atom iff it has at least 4
whitespace fields and fields 2–4 (the three immediately after the symbol)
parse as floats, in which case those fields are the coordinates; all other
lines are silently skipped and parsing continues (the result is the
`filterMap` of the per-line parse over the remaining lines). -/
theorem C5_fields_after_symbol :
    (∀ content : LC,
      parse_xyz_content content =
        ((splitNl (pyStrip content)).drop
          (xyzStart (splitNl (pyStrip content)))).filterMap lineAtom)
    ∧ (∀ l : LC,
        ((lineAtom l).isSome ↔
          (4 ≤ (pySplitWs l).length ∧
            (((pySplitWs l).drop 1).take 3).all isPyFloat = true))
        ∧ (∀ a : XAtom, lineAtom l = some a →
            a.symbol = (pySplitWs l).getD 0 [] ∧
            coordsOf a = ((pySplitWs l).drop 1).take 3)) := by
  constructor
  · intro content
    exact xyzLoop_eq_filterMap _
  · intro l
    constructor
    · unfold lineAtom
      split
      · rename_i hstrip
        have hnil : pySplitWs l = [] :=
          splitWs_nil_of_strip_nil (List.isEmpty_iff.1 hstrip)
        simp [hnil]
      · split
        · split
          · rename_i h4 hfl
            simp only [Option.isSome_some, true_iff]
            exact ⟨h4, hfl⟩
          · rename_i h4 hfl
            exact iff_of_false (by simp) (fun hc => hfl hc.2)
        · rename_i h4
          exact iff_of_false (by simp) (fun hc => h4 hc.1)
    · intro a ha
      unfold lineAtom at ha
      split at ha
      · exact absurd ha (by simp)
      · split at ha
        · split at ha
          · rename_i h4 hfl
            cases ha
            exact ⟨rfl, by rw [take3_drop1 (pySplitWs l) [] h4]; rfl⟩
          · exact absurd ha (by simp)
        · exact absurd ha (by simp)

theorem C5_fields_after_symbol_witness :
    parse_xyz_content (lc "C 1 2 3") =
      ((splitNl (pyStrip (lc "C 1 2 3"))).drop
        (xyzStart (splitNl (pyStrip (lc "C 1 2 3"))))).filterMap lineAtom
    ∧ coordsOf ⟨lc "C", lc "1", lc "2", lc "3"⟩ =
        ((pySplitWs (lc "C 1 2 3")).drop 1).take 3 :=
  ⟨C5_fields_after_symbol.1 (lc "C 1 2 3"),
   ((C5_fields_after_symbol.2 (lc "C 1 2 3")).2 ⟨lc "C", lc "1", lc "2", lc "3"⟩
      (by decide)).2⟩

lemma filterMap_all_isSome {α β : Type} (f : α → Option β) :
    ∀ ls : List α, (∀ l ∈ ls, (f l).isSome = true) →
      ((ls.filterMap f).length = ls.length ∧
        ∀ i : ℕ, (ls.filterMap f).get? i = (ls.get? i).bind f) := by
  intro ls
  induction ls with
  | nil => exact fun _ => ⟨rfl, fun i => by simp⟩
  | cons l rest ih =>
    intro h
    obtain ⟨a, ha⟩ := Option.isSome_iff_exists.1 (h l (List.mem_cons_self l rest))
    have hrest := ih fun d hd => h d (List.mem_cons_of_mem l hd)
    refine ⟨?_, ?_⟩
    · simp [List.filterMap_cons, ha, hrest.1]
    · intro i
      cases i with
      | zero => simp [List.filterMap_cons, ha]
      | succ j => simpa [List.filterMap_cons, ha] using hrest.2 j

/-- C7: for a well-formed coordinate listing — first (post-strip) line a pure
digit count, then a comment line, then record lines that all qualify, with
the declared count equal to the number of record lines — `parse_xyz_content`
returns exactly the declared number of atoms, the i-th atom coming from the
i-th record line. -/
theorem C7_count_and_order (content cl cm : LC) (records : List LC)
    (hsplit : splitNl (pyStrip content) = cl :: cm :: records)
    (hdig : pyIsDigitStr cl = true)
    (hcount : digitsVal cl = records.length)
    (hrec : ∀ l ∈ records, (lineAtom l).isSome = true) :
    (parse_xyz_content content).length = digitsVal cl ∧
    ∀ i : ℕ, (parse_xyz_content content).get? i = (records.get? i).bind lineAtom := by
  have hx : parse_xyz_content content = records.filterMap lineAtom := by
    unfold parse_xyz_content
    rw [hsplit]
    simp [xyzStart, hdig, xyzLoop_eq_filterMap]
  rw [hx, hcount]
  exact filterMap_all_isSome lineAtom records hrec

theorem C7_count_and_order_witness :
    (parse_xyz_content (lc "2\ncomment\nC 0.0 0.0 0.0\nO 0.0 0.0 1.2\n")).length =
      digitsVal (lc "2")
    ∧ (parse_xyz_content (lc "2\ncomment\nC 0.0 0.0 0.0\nO 0.0 0.0 1.2\n")).get? 0 =
        some ⟨lc "C", lc "0.0", lc "0.0", lc "0.0"⟩ :=
  have h := C7_count_and_order (lc "2\ncomment\nC 0.0 0.0 0.0\nO 0.0 0.0 1.2\n")
      (lc "2") (lc "comment") [lc "C 0.0 0.0 0.0", lc "O 0.0 0.0 1.2"]
      (by decide) (by decide) (by decide) (by decide)
  ⟨h.1, (h.2 0).trans (by decide)⟩

/-! ## Python `re.search` for the pattern subset used by the source

The source's patterns use only: literal characters, the `.` wildcard,
greedy one-or-more repetition of a single-character class (`\s+`, `\S+`,
`[\d.]+`, `[\d.-]+`), capturing groups around such a repetition, and the
lazy `.*?`.  Matching is modelled with full backtracking in Python's
preference order: candidate start positions left to right, greedy
repetitions longest first, lazy repetitions shortest first. -/

inductive RItem where
  | lit (c : Char)
  | anyc
  | plus (p : Char → Bool)
  | grp (p : Char → Bool)
  | lazy

/-- All suffixes of the text, in order of increasing start position. -/
def suffixes : LC → List LC
  | [] => [[]]
  | c :: rest => (c :: rest) :: suffixes rest

/-- First successful application of `f`, in list order. -/
def firstSome {α β : Type} : List α → (α → Option β) → Option β
  | [], _ => none
  | a :: rest, f =>
    match f a with
    | some b => some b
    | none => firstSome rest f

/-- Candidate splits for a greedy `X+` on a single-character class: consume
`n` leading class characters for `n` from the maximal run down to 1. -/
def greedySplits (p : Char → Bool) (s : LC) : List (LC × LC) :=
  (List.range (s.takeWhile p).length).map
    (fun k => (s.take ((s.takeWhile p).length - k), s.drop ((s.takeWhile p).length - k)))

/-- Candidate remainders for a lazy `.*?`: shortest consumption first; `.`
does not consume a newline. -/
def lazyTails : LC → List LC
  | [] => [[]]
  | c :: rest => (c :: rest) :: (if c = '\n' then [] else lazyTails rest)

/-- Backtracking matcher: match the item sequence at the start of `s`,
passing the remaining text to the continuation; returns the list of captured
groups in pattern order. -/
def matchSeq : List RItem → LC → (LC → Option (List LC)) → Option (List LC)
  | [], s, k => k s
  | .lit c :: rest, s, k =>
    match s with
    | [] => none
    | x :: s' => if x = c then matchSeq rest s' k else none
  | .anyc :: rest, s, k =>
    match s with
    | [] => none
    | x :: s' => if x = '\n' then none else matchSeq rest s' k
  | .plus _p :: rest, s, k =>
    firstSome (greedySplits _p s) (fun sp => matchSeq rest sp.2 k)
  | .grp _p :: rest, s, k =>
    firstSome (greedySplits _p s)
      (fun sp => (matchSeq rest sp.2 k).map (fun caps => sp.1 :: caps))
  | .lazy :: rest, s, k =>
    firstSome (lazyTails s) (fun s' => matchSeq rest s' k)

/-- Python `re.search(pattern, text)`: try each start position left to
right, return the captured groups of the first match (group numbering is
positional, `group(i)` is entry `i - 1`). -/
def reSearch (pat : List RItem) (text : LC) : Option (List LC) :=
  firstSome (suffixes text) (fun s => matchSeq pat s (fun _ => some []))

/-- A sequence of literal items. -/
def lits (s : String) : List RItem := s.data.map RItem.lit

/-- Regex `\s+` (ASCII fragment, as elsewhere). -/
def wsp : RItem := .plus isPySpace

/-- Regex `[\S]+`, non-capturing. -/
def nsp : RItem := .plus (fun c => !(isPySpace c))

/-- Regex `([\d.]+)`. -/
def gds : RItem := .grp (fun c => c.isDigit || c = '.')

/-- Regex `([\d.-]+)`. -/
def gdsm : RItem := .grp (fun c => c.isDigit || c = '.' || c = '-')

/-- Regex `(\S+)`. -/
def gns : RItem := .grp (fun c => !(isPySpace c))

example : reSearch (lits "bc") (lc "abcd") = some [] := by decide
example : reSearch (lits "bd") (lc "abcd") = none := by decide
example : reSearch [gds] (lc "ab 12.5x") = some [lc "12.5"] := by decide
example : reSearch (lits "v:" ++ [wsp, gds, wsp] ++ lits "kcal") (lc "v:  3.5  kcal") =
    some [lc "3.5"] := by decide
example : reSearch (lits "d" ++ [.lazy, gds, wsp] ++ lits "g") (lc "density is . g") =
    some [lc "."] := by decide

/-! ## OptimizedGeometryExtractor: `extract_optimized_structure`

The embedding starts from the log text (`log_content`); reading the file
from disk is the excluded execution layer's concern.  The whole body runs
inside `try/except Exception: return None`, modelled by `extractBody`
returning `none` for an exception and `some r` for a normal return `r`. -/

/-- An atom record extracted from the log: the untranslated atomic number
(`int(tmp[1])`) and the three coordinate tokens. -/
structure GAtom where
  symbol : ℤ
  x : LC
  y : LC
  z : LC
  deriving DecidableEq

/-- The source's map from atomic number to element symbol
(`atomic_num_to_symbol`, gaussian_v1.py lines 168-173). -/
def atomic_num_to_symbol (n : ℤ) : Option LC :=
  List.lookup n
    [(1, lc "H"), (2, lc "He"), (3, lc "Li"), (4, lc "Be"), (5, lc "B"),
     (6, lc "C"), (7, lc "N"), (8, lc "O"), (9, lc "F"), (10, lc "Ne"),
     (11, lc "Na"), (12, lc "Mg"), (13, lc "Al"), (14, lc "Si"), (15, lc "P"),
     (16, lc "S"), (17, lc "Cl"), (18, lc "Ar"), (19, lc "K"), (20, lc "Ca")]

/-- Pattern of `re.search("Optimization completed.", line)`: the final `.`
is the regex wildcard. -/
def optPat : List RItem := lits "Optimization completed" ++ [RItem.anyc]

/-- Pattern of `re.search("Standard orientation", line)`. -/
def soPat : List RItem := lits "Standard orientation"

/-- Pattern of `re.search("-------", line)`. -/
def dashPat : List RItem := lits "-------"

/-- A `for i, line in enumerate(...)` search with `break`: index of the
first hit. -/
def scanFirst? (p : LC → Bool) : List LC → Option ℕ
  | [] => none
  | l :: rest => if p l then some 0 else (scanFirst? p rest).map (· + 1)

/-- Line hits `re.search("Optimization completed.", line)`. -/
def optLineHit (l : LC) : Bool := (reSearch optPat l).isSome

/-- Line hits `re.search("Standard orientation", line)`. -/
def soLineHit (l : LC) : Bool := (reSearch soPat l).isSome

/-- Line hits `re.search("-------", line)`. -/
def dashLineHit (l : LC) : Bool := (reSearch dashPat l).isSome

/-- First loop of the extractor: `iline` after scanning for the convergence
marker (stays 0 when no line hits). -/
def convLineIdx (ls : List LC) : ℕ := (scanFirst? optLineHit ls).getD 0

/-- Second loop: scan `log_lines[iline:]` for the orientation header and add
the offset to `iline` (unchanged when no line hits). -/
def geomHeaderIdx (ls : List LC) : ℕ :=
  convLineIdx ls + (scanFirst? soLineHit (ls.drop (convLineIdx ls))).getD 0

/-- One geometry record: `tmp = line.split()`, `symbol = int(tmp[1])`,
coordinates from `tmp[-3]`, `tmp[-2]`, `tmp[-1]` via `float`; `none` models
the `IndexError`/`ValueError` exceptions. -/
def parseGRecord (l : LC) : Option GAtom := do
  let s1 ← pyIndexL (pySplitWs l) 1
  let n ← pyInt s1
  let xs ← pyIndexL (pySplitWs l) (-3)
  let ys ← pyIndexL (pySplitWs l) (-2)
  let zs ← pyIndexL (pySplitWs l) (-1)
  if isPyFloat xs && isPyFloat ys && isPyFloat zs then some ⟨n, xs, ys, zs⟩
  else none

/-- Record loop: stop at the first dashed line, otherwise parse records;
an exception aborts the whole read. -/
def readAtoms : List LC → Option (List GAtom)
  | [] => some []
  | l :: rest =>
    if dashLineHit l then some []
    else do
      let a ← parseGRecord l
      let as ← readAtoms rest
      some (a :: as)

/-- Literal marker `"Normal termination"`. -/
def ntMark : LC := lc "Normal termination"

/-- Literal marker `"Optimization completed."`. -/
def ocMark : LC := lc "Optimization completed."

/-- Body of `extract_optimized_structure` inside the `try`: outer `none`
models a raised exception, the inner option is the Python return value. -/
def extractBody (log : LC) : Option (Option (List GAtom)) :=
  if containsSub ntMark log = false then some none
  else if containsSub ocMark log = false then some none
  else
    match readAtoms ((splitNl log).drop (geomHeaderIdx (splitNl log) + 5)) with
    | none => none
    | some atoms => some (if atoms.isEmpty then none else some atoms)

/-- Embedding of `extract_optimized_structure` (gaussian_v1.py lines
154-220) from the log text on: `except Exception: return None`. -/
def extract_optimized_structure (log : LC) : Option (List GAtom) :=
  match extractBody log with
  | none => none
  | some r => r

example : extract_optimized_structure
    (lc "Normal termination\nOptimization completed.\nStandard orientation\nf1\nf2\nf3\nf4\n 1 8 0 0.1 0.2 0.3\n-------") =
    some [⟨8, lc "0.1", lc "0.2", lc "0.3"⟩] := by decide

/-- Sequence a fallible parse over a list, in order (the `Option` monad
`mapM`). -/
def mapOptM (f : LC → Option GAtom) : List LC → Option (List GAtom)
  | [] => some []
  | l :: rest => do
    let a ← f l
    let as ← mapOptM f rest
    some (a :: as)

lemma matchSeq_lits_isSome (s u : LC) :
    (matchSeq (s.map RItem.lit) u (fun _ => some [])).isSome = isPre s u := by
  induction s generalizing u with
  | nil => simp [matchSeq, isPre]
  | cons c cs ih =>
    cases u with
    | nil => simp [matchSeq, isPre]
    | cons x u' =>
      simp only [List.map_cons, matchSeq, isPre]
      by_cases hx : x = c
      · subst hx
        simp [ih]
      · simp [hx, Ne.symm hx]

lemma firstSome_cons_isSome {α β : Type} (a : α) (l : List α) (f : α → Option β) :
    (firstSome (a :: l) f).isSome = ((f a).isSome || (firstSome l f).isSome) := by
  simp only [firstSome]
  cases f a <;> simp

lemma reSearch_lits_isSome (s t : LC) :
    (reSearch (s.map RItem.lit) t).isSome = containsSub s t := by
  induction t with
  | nil =>
    show (firstSome [[]] _).isSome = _
    rw [firstSome_cons_isSome]
    simp [firstSome, matchSeq_lits_isSome, containsSub]
  | cons c rest ih =>
    have h1 : reSearch (s.map RItem.lit) (c :: rest) =
        firstSome ((c :: rest) :: suffixes rest)
          (fun u => matchSeq (s.map RItem.lit) u (fun _ => some [])) := rfl
    rw [h1, firstSome_cons_isSome, matchSeq_lits_isSome]
    have h2 : (firstSome (suffixes rest)
        (fun u => matchSeq (List.map RItem.lit s) u (fun _ => some []))).isSome =
        containsSub s rest := ih
    rw [h2]
    rfl

lemma scanFirst?_eq (p : LC → Bool) (ls : List LC) :
    scanFirst? p ls = List.findIdx? p ls := by
  induction ls with
  | nil => rfl
  | cons l rest ih => simp [scanFirst?, List.findIdx?_cons, ih]

lemma readAtoms_eq (rest : List LC) :
    readAtoms rest =
      mapOptM parseGRecord (rest.takeWhile (fun l => !(containsSub (lc "-------") l))) := by
  induction rest with
  | nil => rfl
  | cons l r ih =>
    have hd : dashLineHit l = containsSub (lc "-------") l :=
      reSearch_lits_isSome (lc "-------") l
    cases hds : containsSub (lc "-------") l with
    | true =>
      simp only [readAtoms, hd, hds, List.takeWhile_cons, Bool.not_true, if_true,
        cond_false]
      rfl
    | false => simp [readAtoms, hd, hds, List.takeWhile_cons, mapOptM, ih]

/-- C8: a log that does not contain the literal `"Normal termination"`
marker makes `extract_optimized_structure` return the explicit no-result
outcome `None`, regardless of the rest of the log. -/
theorem C8_missing_termination_marker (log : LC)
    (h : containsSub ntMark log = false) :
    extract_optimized_structure log = none := by
  unfold extract_optimized_structure extractBody
  rw [h]
  rfl

theorem C8_missing_termination_marker_witness :
    containsSub ntMark (lc "Optimization completed.\nanything") = false ∧
    extract_optimized_structure (lc "Optimization completed.\nanything") = none :=
  ⟨by decide,
   C8_missing_termination_marker (lc "Optimization completed.\nanything") (by decide)⟩

/-- C10: when both markers are present but reading the geometry block
raises (any parse exception in the record loop), the function returns
`None` — no record sequence is returned and no exception propagates. -/
theorem C10_read_exception_yields_none (log : LC)
    (hnt : containsSub ntMark log = true)
    (hoc : containsSub ocMark log = true)
    (hread : readAtoms ((splitNl log).drop (geomHeaderIdx (splitNl log) + 5)) = none) :
    extract_optimized_structure log = none := by
  unfold extract_optimized_structure extractBody
  rw [hnt, hoc, hread]
  rfl

theorem C10_read_exception_yields_none_witness :
    readAtoms ((splitNl (lc "Normal termination\nOptimization completed.\nStandard orientation\nf1\nf2\nf3\nf4\na b c\n-------")).drop
      (geomHeaderIdx (splitNl (lc "Normal termination\nOptimization completed.\nStandard orientation\nf1\nf2\nf3\nf4\na b c\n-------")) + 5)) = none ∧
    extract_optimized_structure (lc "Normal termination\nOptimization completed.\nStandard orientation\nf1\nf2\nf3\nf4\na b c\n-------") = none :=
  ⟨by decide,
   C10_read_exception_yields_none
     (lc "Normal termination\nOptimization completed.\nStandard orientation\nf1\nf2\nf3\nf4\na b c\n-------")
     (by decide) (by decide) (by decide)⟩

/-- C1: evaluation of the code on a well-formed converged log.  The
returned atom carries the raw atomic number 1, although the fixed table
maps 1 to the element symbol `H`: `atomic_num_to_symbol` is defined by the
source but never applied, so the extractor's output is never mapped through
it. -/
theorem C1_unmapped_atomic_numbers :
    extract_optimized_structure
      (lc "Optimization completed.\n Standard orientation:\nA\nB\nC\nD\n 1 1 0 0.000 0.000 0.000\n---------------\nNormal termination") =
      some [⟨1, lc "0.000", lc "0.000", lc "0.000"⟩]
    ∧ atomic_num_to_symbol 1 = some (lc "H") :=
  ⟨by decide, by decide⟩

/-- Spec-side description (claim C4): index `c` of the first line matching
`Optimization completed.`. -/
def convLineIdxSpec (ls : List LC) : Option ℕ :=
  List.findIdx? (fun l => (reSearch optPat l).isSome) ls

/-- Spec-side description (claim C4): first line at or after `c` containing
`Standard orientation`. -/
def geomHeaderIdxSpec (ls : List LC) (c : ℕ) : Option ℕ :=
  (List.findIdx? (fun l => containsSub (lc "Standard orientation") l) (ls.drop c)).map
    (c + ·)

/-- Spec-side description (claim C4): records read from five lines after the
header, stopping at the first line containing a run of dashes, each record
giving the second whitespace field as atomic number and the last three
fields as coordinates. -/
def recordsSpec (ls : List LC) (hd : ℕ) : Option (List GAtom) :=
  mapOptM parseGRecord
    ((ls.drop (hd + 5)).takeWhile (fun l => !(containsSub (lc "-------") l)))

/-- C4: when both markers are present, the extractor's result is the
spec-described one — records read from five lines after the first
`Standard orientation` line at or after the first line matching
`Optimization completed.`, up to the first dashed line (empty block and
record-parse exceptions both collapse to `None`). -/
theorem C4_geometry_location (log : LC) (c hd : ℕ)
    (hnt : containsSub ntMark log = true)
    (hoc : containsSub ocMark log = true)
    (hc : convLineIdxSpec (splitNl log) = some c)
    (hh : geomHeaderIdxSpec (splitNl log) c = some hd) :
    extract_optimized_structure log =
      (match recordsSpec (splitNl log) hd with
       | none => none
       | some atoms => if atoms.isEmpty then none else some atoms) := by
  have hcidx : convLineIdx (splitNl log) = c := by
    unfold convLineIdx
    have h1 : scanFirst? optLineHit (splitNl log) = some c := by
      rw [scanFirst?_eq]
      exact hc
    rw [h1]
    rfl
  have hhidx : geomHeaderIdx (splitNl log) = hd := by
    unfold geomHeaderIdx
    rw [hcidx]
    obtain ⟨j, hj, hcd⟩ : ∃ j,
        List.findIdx? (fun l => containsSub (lc "Standard orientation") l)
          ((splitNl log).drop c) = some j ∧ c + j = hd := by
      unfold geomHeaderIdxSpec at hh
      cases hfi : List.findIdx? (fun l => containsSub (lc "Standard orientation") l)
          ((splitNl log).drop c) with
      | none => rw [hfi] at hh; simp at hh
      | some j =>
        rw [hfi] at hh
        simp only [Option.map_some'] at hh
        exact ⟨j, rfl, Option.some.inj hh⟩
    have h2 : scanFirst? soLineHit ((splitNl log).drop c) = some j := by
      rw [scanFirst?_eq]
      have hfun : soLineHit = fun l => containsSub (lc "Standard orientation") l :=
        funext fun l => reSearch_lits_isSome (lc "Standard orientation") l
      rw [hfun]
      exact hj
    rw [h2]
    exact hcd
  unfold extract_optimized_structure extractBody
  rw [hnt, hoc, hhidx]
  rw [show readAtoms ((splitNl log).drop (hd + 5)) = recordsSpec (splitNl log) hd from
    readAtoms_eq _]
  cases recordsSpec (splitNl log) hd <;> rfl

theorem C4_geometry_location_witness :
    extract_optimized_structure
      (lc "Normal termination\nOptimization completed.\n Standard orientation\nh1\nh2\nh3\nh4\n 1 6 0 1.0 2.0 3.0\n 2 8 0 4.0 5.0 6.0\n-------") =
      (match recordsSpec
          (splitNl (lc "Normal termination\nOptimization completed.\n Standard orientation\nh1\nh2\nh3\nh4\n 1 6 0 1.0 2.0 3.0\n 2 8 0 4.0 5.0 6.0\n-------")) 2 with
       | none => none
       | some atoms => if atoms.isEmpty then none else some atoms) :=
  C4_geometry_location
    (lc "Normal termination\nOptimization completed.\n Standard orientation\nh1\nh2\nh3\nh4\n 1 6 0 1.0 2.0 3.0\n 2 8 0 4.0 5.0 6.0\n-------")
    1 2 (by decide) (by decide) (by decide) (by decide)

/-! ## ElectronicStructureExtractor: `extract_fchk_data`

The embedding takes the file's line list (`f.readlines()`); trailing
newlines on the lines are immaterial to every operation performed
(substring tests and whitespace splits), so lines are taken without them.
The function has no `try`, so exceptions (`ValueError`, `IndexError`,
`KeyError`) propagate; `none` models a raised exception. -/

/-- Result dictionary of `extract_fchk_data`.  `energy` is the
`"Energy"` entry (possibly never set), `ne` the `"Ne"` entry (reading it
when never set raises `KeyError`, handled in `extract_fchk_data`), `homo`
and `lumo` the derived entries. -/
structure FchkResult where
  energy : Option LC
  ne : ℤ
  homo : LC
  lumo : LC
  deriving DecidableEq

/-- The scan loop of `extract_fchk_data`: updates `Energy` on a
`"Total Energy"` line, `Ne` on a `"Number of electrons"` line, and breaks
with the current index on an `"Alpha Orbital Energies"` line (the source's
`elif` makes the break test only when the line has no electron-count
marker); if the loop exhausts the lines, `iline` keeps its initial 0.
Returns `(energy, ne, iline)`; `none` models a `ValueError` from parsing a
marker line's last token. -/
def fchkScan (i : ℕ) (en : Option LC) (ne : Option ℤ) :
    List LC → Option (Option LC × Option ℤ × ℕ)
  | [] => some (en, ne, 0)
  | l :: rest => do
    let en' ←
      if containsSub (lc "Total Energy") l then do
        let tok ← (pySplitWs l).getLast?
        if isPyFloat tok then some (some tok) else none
      else some en
    if containsSub (lc "Number of electrons") l then do
      let tok ← (pySplitWs l).getLast?
      let v ← pyInt tok
      fchkScan (i + 1) en' (some v) rest
    else if containsSub (lc "Alpha Orbital Energies") l then some (en', ne, i)
    else fchkScan (i + 1) en' ne rest

/-- The count `nline`: number of 5-value records for `nbasis` orbital energies
(`nbasis//5` exactly, else `nbasis//5 + 1`). -/
def nlineOf (nbasis : ℤ) : ℤ :=
  if Int.emod nbasis 5 = 0 then Int.ediv nbasis 5 else Int.ediv nbasis 5 + 1

/-- The `for i in range(nline)` orbital-energy accumulation: read `cnt`
lines starting at index `k`, split each on whitespace, parse every token
with `float` (kept as its token), concatenating in line order; `none`
models `IndexError`/`ValueError`. -/
def readOrb (ls : List LC) (k : ℕ) : ℕ → Option (List LC)
  | 0 => some []
  | cnt + 1 => do
    let l ← ls.get? k
    if (pySplitWs l).all isPyFloat then do
      let rest ← readOrb ls (k + 1) cnt
      some (pySplitWs l ++ rest)
    else none

/-- Orbital-energy list of the summary: scan to the section label, read its
final token as the declared count, then read `nline` records. -/
def fchkOrbitalEnergies (ls : List LC) : Option (List LC) := do
  let (_, _, iline) ← fchkScan 0 none none ls
  let lbl ← ls.get? iline
  let tok ← (pySplitWs lbl).getLast?
  let nbasis ← pyInt tok
  readOrb ls (iline + 1) (nlineOf nbasis).toNat

/-- Embedding of `extract_fchk_data` (gaussian_v1.py lines 258-299) from
the line list on. -/
def extract_fchk_data (ls : List LC) : Option FchkResult := do
  let (en, neOpt, iline) ← fchkScan 0 none none ls
  let lbl ← ls.get? iline
  let tok ← (pySplitWs lbl).getLast?
  let nbasis ← pyInt tok
  let orb ← readOrb ls (iline + 1) (nlineOf nbasis).toNat
  let ne ← neOpt
  let h ← pyIndexL orb (Int.ediv ne 2 - 1)
  let lu ← pyIndexL orb (Int.ediv ne 2)
  some ⟨en, ne, h, lu⟩

example : extract_fchk_data
    [lc "Total Energy                               R     -1.5", lc "Number of electrons                        I       10",
     lc "Alpha Orbital Energies                     R   N=          12",
     lc "-1.0 -0.9 -0.8 -0.7 -0.6", lc "-0.5 -0.4 -0.3 -0.2 -0.1", lc "0.1 0.2"] =
    some ⟨some (lc "-1.5"), 10, lc "-0.6", lc "-0.5"⟩ := by decide

lemma pyIndexL_nonneg {α : Type} (l : List α) (i : ℤ) (h : 0 ≤ i) :
    pyIndexL l i = l.get? i.toNat := by
  simp [pyIndexL, h]

/-- C2: whenever `extract_fchk_data` returns, with an even electron count
`Ne ≥ 2` and at least `Ne/2 + 1` orbital energies, the returned HOMO is
`orbitalEnergies[Ne/2 - 1]` and the returned LUMO is
`orbitalEnergies[Ne/2]` (integer division, zero-based). -/
theorem C2_homo_lumo (ls : List LC) (r : FchkResult) (orb : List LC)
    (hr : extract_fchk_data ls = some r)
    (horb : fchkOrbitalEnergies ls = some orb)
    (heven : Int.emod r.ne 2 = 0)
    (hpos : 2 ≤ r.ne)
    (hlen : (Int.ediv r.ne 2).toNat + 1 ≤ orb.length) :
    orb.get? (Int.ediv r.ne 2 - 1).toNat = some r.homo ∧
    orb.get? (Int.ediv r.ne 2).toNat = some r.lumo := by
  simp only [extract_fchk_data, bind] at hr
  simp only [Option.bind_eq_some] at hr
  obtain ⟨⟨en, neOpt, iline⟩, hscan, hr⟩ := hr
  obtain ⟨lbl, hlbl, hr⟩ := hr
  obtain ⟨tok, htok, hr⟩ := hr
  obtain ⟨nbasis, hnb, hr⟩ := hr
  obtain ⟨orb2, horb2, hr⟩ := hr
  obtain ⟨ne, hne, hr⟩ := hr
  obtain ⟨hv, hhv, hr⟩ := hr
  obtain ⟨lv, hlv, hr⟩ := hr
  obtain rfl : ({ energy := en, ne := ne, homo := hv, lumo := lv } : FchkResult) = r :=
    Option.some.inj hr
  simp only [fchkOrbitalEnergies, bind] at horb
  simp only [Option.bind_eq_some] at horb
  obtain ⟨⟨en2, neo2, iline2⟩, hscan2, horb⟩ := horb
  obtain ⟨lbl2, hlbl2, horb⟩ := horb
  obtain ⟨tok2, htok2, horb⟩ := horb
  obtain ⟨nbasis2, hnb2, horb⟩ := horb
  rw [hscan] at hscan2
  have h3 := Option.some.inj hscan2
  rw [Prod.mk.injEq, Prod.mk.injEq] at h3
  obtain ⟨rfl, rfl, rfl⟩ := h3
  rw [hlbl] at hlbl2
  obtain rfl := Option.some.inj hlbl2
  rw [htok] at htok2
  obtain rfl := Option.some.inj htok2
  rw [hnb] at hnb2
  obtain rfl := Option.some.inj hnb2
  rw [horb2] at horb
  obtain rfl := Option.some.inj horb
  simp only at heven hpos hlen ⊢
  have hdiv : ne / 2 = Int.ediv ne 2 := rfl
  rw [pyIndexL_nonneg _ _ (by omega)] at hhv
  rw [pyIndexL_nonneg _ _ (by omega)] at hlv
  exact ⟨hhv, hlv⟩

lemma nlineOf_toNat (n : ℤ) (h : 0 ≤ n) : (nlineOf n).toNat = (n.toNat + 4) / 5 := by
  unfold nlineOf
  have h5 : n / 5 = Int.ediv n 5 := rfl
  have h5m : n % 5 = Int.emod n 5 := rfl
  split <;> omega

lemma readOrb_chars (ls : List LC) : ∀ (cnt k : ℕ) (orb : List LC),
    readOrb ls k cnt = some orb →
    orb = (((ls.drop k).take cnt).map pySplitWs).flatten ∧
    ∀ t ∈ orb, isPyFloat t = true := by
  intro cnt
  induction cnt with
  | zero =>
    intro k orb h
    obtain rfl := Option.some.inj h
    simp
  | succ c ih =>
    intro k orb h
    simp only [readOrb, bind] at h
    simp only [Option.bind_eq_some] at h
    obtain ⟨l, hl, h⟩ := h
    split at h
    · rename_i hall
      simp only [Option.bind_eq_some] at h
      obtain ⟨rest, hrest, h⟩ := h
      obtain rfl := Option.some.inj h
      obtain ⟨hre, hrf⟩ := ih (k + 1) rest hrest
      have hdrop : ls.drop k = l :: ls.drop (k + 1) := by
        obtain ⟨hk, hgl⟩ := List.get?_eq_some.1 hl
        rw [List.drop_eq_getElem_cons hk]
        simp [← hgl]
      constructor
      · rw [hdrop, List.take_succ_cons, List.map_cons, List.flatten_cons, hre]
      · intro t ht
        rcases List.mem_append.1 ht with h1 | h1
        · exact List.all_eq_true.1 hall t h1
        · exact hrf t h1
    · exact absurd h (by simp)

/-- C6: whenever the orbital-energy read succeeds, the number of lines read
is exactly `ceil(n / 5)` for the declared count `n` (the final token of the
section label line), and the orbital-energy list is the concatenation, in
line order, of all whitespace tokens of those lines, all of which parse as
floats. -/
theorem C6_record_count_and_concat (ls : List LC) (en : Option LC) (neo : Option ℤ)
    (iline : ℕ) (lbl tok : LC) (nbasis : ℤ) (orb : List LC)
    (hscan : fchkScan 0 none none ls = some (en, neo, iline))
    (hlbl : ls.get? iline = some lbl)
    (htok : (pySplitWs lbl).getLast? = some tok)
    (hnb : pyInt tok = some nbasis)
    (hpos : 0 ≤ nbasis)
    (horb : fchkOrbitalEnergies ls = some orb) :
    (nlineOf nbasis).toNat = (nbasis.toNat + 4) / 5 ∧
    orb = (((ls.drop (iline + 1)).take ((nbasis.toNat + 4) / 5)).map pySplitWs).flatten ∧
    ∀ t ∈ orb, isPyFloat t = true := by
  simp only [fchkOrbitalEnergies, bind] at horb
  simp only [Option.bind_eq_some] at horb
  obtain ⟨⟨en2, neo2, iline2⟩, hscan2, horb⟩ := horb
  obtain ⟨lbl2, hlbl2, horb⟩ := horb
  obtain ⟨tok2, htok2, horb⟩ := horb
  obtain ⟨nb2, hnb2, horb⟩ := horb
  rw [hscan] at hscan2
  have h3 := Option.some.inj hscan2
  rw [Prod.mk.injEq, Prod.mk.injEq] at h3
  obtain ⟨rfl, rfl, rfl⟩ := h3
  rw [hlbl] at hlbl2
  obtain rfl := Option.some.inj hlbl2
  rw [htok] at htok2
  obtain rfl := Option.some.inj htok2
  rw [hnb] at hnb2
  obtain rfl := Option.some.inj hnb2
  have hnl := nlineOf_toNat nbasis hpos
  obtain ⟨h1, h2⟩ := readOrb_chars ls ((nlineOf nbasis).toNat) (iline + 1) orb horb
  rw [hnl] at h1
  exact ⟨hnl, h1, h2⟩

theorem C6_record_count_and_concat_witness :
    (nlineOf 7).toNat = ((7 : ℤ).toNat + 4) / 5 ∧
    [lc "1.0", lc "2.0", lc "3.0", lc "4.0", lc "5.0", lc "6.0", lc "7.0"] =
      ((([lc "Alpha Orbital Energies   R   N=   7",
          lc "1.0 2.0 3.0 4.0 5.0", lc "6.0 7.0"].drop 1).take
          (((7 : ℤ).toNat + 4) / 5)).map pySplitWs).flatten ∧
    isPyFloat (lc "6.0") = true :=
  have h := C6_record_count_and_concat
    [lc "Alpha Orbital Energies   R   N=   7", lc "1.0 2.0 3.0 4.0 5.0", lc "6.0 7.0"]
    none none 0 (lc "Alpha Orbital Energies   R   N=   7") (lc "7") 7
    [lc "1.0", lc "2.0", lc "3.0", lc "4.0", lc "5.0", lc "6.0", lc "7.0"]
    (by decide) (by decide) (by decide) (by decide) (by decide) (by decide)
  ⟨h.1, h.2.1, h.2.2 (lc "6.0") (by decide)⟩

/-! ## SurfaceAnalysisReportParser: `parse_multiwfn_surface_analysis`

The result dictionary is modelled as an insertion-ordered association list
(`Dict`), with Python dict assignment `d[k] = v` as `dset` (replace at the
first occurrence of the key, else append).  `float(match.group(i))` has no
surrounding `try`, so a captured token that fails the float grammar raises
`ValueError`; the embedding returns `none` for that raised exception. -/

/-- A Python value stored in the result dictionary. -/
inductive PVal where
  | vnone
  | vstr (s : LC)
  | vdict (entries : List (LC × PVal))
  | vlist (elems : List PVal)

/-- An insertion-ordered Python dictionary. -/
abbrev Dict := List (LC × PVal)

/-- Python dict assignment `d[k] = v`: replace the value at the first
occurrence of `k`, keeping its position, else append. -/
def dset : Dict → LC → PVal → Dict
  | [], k, v => [(k, v)]
  | (k0, v0) :: rest, k, v =>
    if k0 = k then (k0, v) :: rest else (k0, v0) :: dset rest k v

/-- Python dict read `d[k]` (first occurrence). -/
def dlookup : Dict → LC → Option PVal
  | [], _ => none
  | (k0, v0) :: rest, k => if k0 = k then some v0 else dlookup rest k

def kVolume : LC := lc "volume"
def kDensity : LC := lc "density"
def kEspRange : LC := lc "esp_range"
def kSurfaceArea : LC := lc "surface_area"
def kEspStats : LC := lc "esp_stats"
def kPolarity : LC := lc "polarity"
def kSkewness : LC := lc "skewness"
def kMinima : LC := lc "minima"

/-- The initial `results` dictionary of the source (lines 312-321). -/
def initResults : Dict :=
  [(kVolume, .vdict []), (kDensity, .vnone), (kEspRange, .vdict []),
   (kSurfaceArea, .vdict []), (kEspStats, .vdict []), (kPolarity, .vdict []),
   (kSkewness, .vdict []), (kMinima, .vnone)]

/-- Python `float(token)` on a captured group: the token is kept on success,
`none` models the raised `ValueError`. -/
def floatChk (s : LC) : Option PVal :=
  if isPyFloat s then some (PVal.vstr s) else none

/-- Pattern `r"Volume:\s+([\d.]+)\s+Bohr\^3\s+\(\s+([\d.]+)\s+Angstrom\^3\)"`. -/
def volPat : List RItem :=
  lits "Volume:" ++ [wsp, gds, wsp] ++ lits "Bohr^3" ++ [wsp] ++ lits "(" ++
    [wsp, gds, wsp] ++ lits "Angstrom^3)"

/-- Pattern `r"Estimated density.*?([\d.]+)\s+g/cm\^3"`. -/
def densPat : List RItem := lits "Estimated density" ++ [.lazy, gds, wsp] ++ lits "g/cm^3"

/-- Pattern `r"Minimal value:\s+([\d.-]+)\s+kcal/mol"`. -/
def espMinPat : List RItem := lits "Minimal value:" ++ [wsp, gdsm, wsp] ++ lits "kcal/mol"

/-- Pattern `r"Maximal value:\s+([\d.-]+)\s+kcal/mol"`. -/
def espMaxPat : List RItem := lits "Maximal value:" ++ [wsp, gdsm, wsp] ++ lits "kcal/mol"

/-- Pattern `r"Overall surface area:\s+(\S+)\s+Bohr\^2\s+\(\s+(\S+)\s+Angstrom\^2\)"`. -/
def areaTotPat : List RItem :=
  lits "Overall surface area:" ++ [wsp, gns, wsp] ++ lits "Bohr^2" ++ [wsp] ++
    lits "(" ++ [wsp, gns, wsp] ++ lits "Angstrom^2)"

/-- Pattern `r"Positive surface area:\s+([\d.]+)\s+Bohr\^2\s+\(\s+([\d.]+)\s+Angstrom\^2\)"`. -/
def areaPosPat : List RItem :=
  lits "Positive surface area:" ++ [wsp, gds, wsp] ++ lits "Bohr^2" ++ [wsp] ++
    lits "(" ++ [wsp, gds, wsp] ++ lits "Angstrom^2)"

/-- Pattern `r"Negative surface area:\s+([\d.]+)\s+Bohr\^2\s+\(\s+([\d.]+)\s+Angstrom\^2\)"`. -/
def areaNegPat : List RItem :=
  lits "Negative surface area:" ++ [wsp, gds, wsp] ++ lits "Bohr^2" ++ [wsp] ++
    lits "(" ++ [wsp, gds, wsp] ++ lits "Angstrom^2)"

/-- Pattern `r"Overall average value:\s+([\d.-]+)\s+a\.u\."`. -/
def overallAvgPat : List RItem :=
  lits "Overall average value:" ++ [wsp, gdsm, wsp] ++ lits "a.u."

/-- Pattern `r"Positive average value:\s+([\d.-]+)\s+a\.u\."`. -/
def positiveAvgPat : List RItem :=
  lits "Positive average value:" ++ [wsp, gdsm, wsp] ++ lits "a.u."

/-- Pattern `r"Negative average value:\s+([\d.-]+)\s+a\.u\."`. -/
def negativeAvgPat : List RItem :=
  lits "Negative average value:" ++ [wsp, gdsm, wsp] ++ lits "a.u."

/-- Pattern `r"Overall variance.*?:\s+([\d.]+)\s+a\.u\.\^2"`. -/
def totalVarPat : List RItem :=
  lits "Overall variance" ++ [.lazy] ++ lits ":" ++ [wsp, gds, wsp] ++ lits "a.u.^2"

/-- Pattern `r"Positive variance:\s+([\d.]+)\s+a\.u\.\^2"`. -/
def positiveVarPat : List RItem :=
  lits "Positive variance:" ++ [wsp, gds, wsp] ++ lits "a.u.^2"

/-- Pattern `r"Negative variance:\s+([\d.]+)\s+a\.u\.\^2"`. -/
def negativeVarPat : List RItem :=
  lits "Negative variance:" ++ [wsp, gds, wsp] ++ lits "a.u.^2"

/-- Pattern `r"Balance of charges \(nu\):\s+([\d.-]+)"`. -/
def chargeBalancePat : List RItem := lits "Balance of charges (nu):" ++ [wsp, gdsm]

/-- Pattern `r"Internal charge separation \(Pi\):\s+([\d.-]+)\s+a\.u\."`. -/
def internalSepPat : List RItem :=
  lits "Internal charge separation (Pi):" ++ [wsp, gdsm, wsp] ++ lits "a.u."

/-- Pattern `r"Molecular polarity index \(MPI\):\s+([\d.]+)\s+eV"`. -/
def molPolarityPat : List RItem :=
  lits "Molecular polarity index (MPI):" ++ [wsp, gds, wsp] ++ lits "eV"

/-- The combined polarity-partition pattern (source lines 377-381), ending
in `([\d.]+)\s+` after the fourth group. -/
def polarityPat : List RItem :=
  lits "Nonpolar surface area" ++ [.lazy, gds, wsp] ++ lits "Angstrom^2" ++ [wsp] ++
    lits "(" ++ [wsp, gds, wsp] ++ lits "%)" ++ [wsp] ++ lits "Polar surface area" ++
    [.lazy, gds, wsp] ++ lits "Angstrom^2" ++ [wsp] ++ lits "(" ++ [wsp, gds, wsp]

/-- Pattern `r"Overall skewness:\s+([\d.-]+)"`. -/
def skewOverallPat : List RItem := lits "Overall skewness:" ++ [wsp, gdsm]

/-- Pattern `r"Positive skewness:\s+([\d.-]+)"`. -/
def skewPositivePat : List RItem := lits "Positive skewness:" ++ [wsp, gdsm]

/-- Pattern `r"Negative skewness:\s+([\d.-]+)"`. -/
def skewNegativePat : List RItem := lits "Negative skewness:" ++ [wsp, gdsm]

/-- Pattern `r"Global surface minimum:\s+[\S]+ a.u. at\s+(\S+)\s+(\S+)\s+(\S+) Ang"`
(the dots around `u` are unescaped wildcards in the source). -/
def minimaPat : List RItem :=
  lits "Global surface minimum:" ++ [wsp, nsp] ++ lits " a" ++ [.anyc] ++ lits "u" ++
    [.anyc] ++ lits " at" ++ [wsp, gns, wsp, gns, wsp, gns] ++ lits " Ang"

/-- Value builder for the volume entry (two groups, both floats). -/
def volMk (caps : List LC) : Option PVal := do
  let g1 ← caps.get? 0
  let g2 ← caps.get? 1
  let v1 ← floatChk g1
  let v2 ← floatChk g2
  some (.vdict [(lc "Bohr^3", v1), (lc "Angstrom^3", v2)])

/-- Value builder for a single-group float entry (density, the statistical
moments, the skewness entries). -/
def statMk (caps : List LC) : Option PVal := do
  let g1 ← caps.get? 0
  floatChk g1

/-- Value builder for the ESP-range entry: `float(esp_min.group(1))` under
the min key and `float(esp_max.group(1))` under the max key (source lines
340-343). -/
def espMk (capsMin capsMax : List LC) : Option PVal := do
  let g1 ← capsMin.get? 0
  let v1 ← floatChk g1
  let g2 ← capsMax.get? 0
  let v2 ← floatChk g2
  some (.vdict [(lc "min_kcal/mol", v1), (lc "max_kcal/mol", v2)])

/-- Value builder for the polarity-partition entry (four groups). -/
def polarityMk (caps : List LC) : Option PVal := do
  let g1 ← caps.get? 0
  let g2 ← caps.get? 1
  let g3 ← caps.get? 2
  let g4 ← caps.get? 3
  let v1 ← floatChk g1
  let v2 ← floatChk g2
  let v3 ← floatChk g3
  let v4 ← floatChk g4
  some (.vdict [(lc "nonpolar_area", v1), (lc "nonpolar_percent", v2),
    (lc "polar_area", v3), (lc "polar_percent", v4)])

/-- Value builder for the global-minimum coordinates (three groups). -/
def minimaMk (caps : List LC) : Option PVal := do
  let g1 ← caps.get? 0
  let g2 ← caps.get? 1
  let g3 ← caps.get? 2
  let v1 ← floatChk g1
  let v2 ← floatChk g2
  let v3 ← floatChk g3
  some (.vlist [v1, v2, v3])

/-- The shape shared by every single-pattern block of the parser: search
the whole text once; on no match keep the dictionary, on a match build the
value (a failed `float` raises) and assign it to the block's key. -/
def matchStep (P : List RItem) (k : LC) (mk : List LC → Option PVal) (t : LC)
    (d : Dict) : Option Dict :=
  match reSearch P t with
  | none => some d
  | some caps => (mk caps).map (fun v => dset d k v)

/-- Block 2: ESP range; the group is assigned only when both searches
matched (source line 339: `if esp_min and esp_max`), each value built from
its own match's capture. -/
def espRangeStep (t : LC) (d : Dict) : Option Dict :=
  match reSearch espMinPat t, reSearch espMaxPat t with
  | some capsMin, some capsMax =>
    (espMk capsMin capsMax).map (fun v => dset d kEspRange v)
  | _, _ => some d

/-- Read `d[k]` expecting a dict (the nested-assignment target);
a non-dict value would be a `TypeError`, modelled as failure. -/
def getSubDict (d : Dict) (k : LC) : Option Dict :=
  match dlookup d k with
  | some (.vdict sd) => some sd
  | _ => none

/-- The shape shared by the source's three pattern-table loops (areas,
statistical moments, skewness): for each `(key, pattern)` pair in order,
search the whole text and on a match store `mk`-built value under `key`
inside the sub-dictionary at `ok`. -/
def patLoop (ok : LC) (mk : List LC → Option PVal) (t : LC) :
    List (LC × List RItem) → Dict → Option Dict
  | [], d => some d
  | (key, pat) :: rest, d =>
    match reSearch pat t with
    | none => patLoop ok mk t rest d
    | some caps => do
      let v ← mk caps
      let sd ← getSubDict d ok
      patLoop ok mk t rest (dset d ok (.vdict (dset sd key v)))

/-- Value builder for one surface-area entry (two groups, both floats). -/
def areaMk (caps : List LC) : Option PVal := do
  let g1 ← caps.get? 0
  let g2 ← caps.get? 1
  let v1 ← floatChk g1
  let v2 ← floatChk g2
  some (.vdict [(lc "Bohr^2", v1), (lc "Angstrom^2", v2)])

/-- The `area_patterns` table (source lines 346-350). -/
def areaPatterns : List (LC × List RItem) :=
  [(lc "total", areaTotPat), (lc "positive", areaPosPat), (lc "negative", areaNegPat)]

/-- The `stats_patterns` table (source lines 360-370), in insertion order. -/
def statsPatterns : List (LC × List RItem) :=
  [(lc "overall_avg", overallAvgPat), (lc "positive_avg", positiveAvgPat),
   (lc "negative_avg", negativeAvgPat), (lc "total_variance", totalVarPat),
   (lc "positive_variance", positiveVarPat), (lc "negative_variance", negativeVarPat),
   (lc "charge_balance", chargeBalancePat), (lc "internal_separation", internalSepPat),
   (lc "molecular_polarity", molPolarityPat)]

/-- The `skew_patterns` table (source lines 391-395). -/
def skewPatterns : List (LC × List RItem) :=
  [(lc "overall", skewOverallPat), (lc "positive", skewPositivePat),
   (lc "negative", skewNegativePat)]

/-- Embedding of `parse_multiwfn_surface_analysis` (gaussian_v1.py lines
301-406), blocks in source order; `none` models a raised `ValueError`. -/
def parse_multiwfn_surface_analysis (t : LC) : Option Dict := do
  let d1 ← matchStep volPat kVolume volMk t initResults
  let d2 ← matchStep densPat kDensity statMk t d1
  let d3 ← espRangeStep t d2
  let d4 ← patLoop kSurfaceArea areaMk t areaPatterns d3
  let d5 ← patLoop kEspStats statMk t statsPatterns d4
  let d6 ← matchStep polarityPat kPolarity polarityMk t d5
  let d7 ← patLoop kSkewness statMk t skewPatterns d6
  matchStep minimaPat kMinima minimaMk t d7

example : parse_multiwfn_surface_analysis (lc "Estimated density is . g/cm^3") = none := rfl

example : parse_multiwfn_surface_analysis (lc "Minimal value: 1.0 kcal/mol") =
    some initResults := rfl

example : parse_multiwfn_surface_analysis
    (lc "Minimal value: 1.0 kcal/mol\nMaximal value: 2.0 kcal/mol") =
    some [(kVolume, .vdict []), (kDensity, .vnone),
      (kEspRange, .vdict [(lc "min_kcal/mol", .vstr (lc "1.0")),
        (lc "max_kcal/mol", .vstr (lc "2.0"))]),
      (kSurfaceArea, .vdict []), (kEspStats, .vdict []), (kPolarity, .vdict []),
      (kSkewness, .vdict []), (kMinima, .vnone)] := rfl

example : parse_multiwfn_surface_analysis
    (lc "Minimal value: 1.0 kcal/mol\nMaximal value: -.- kcal/mol") = none := rfl

example : parse_multiwfn_surface_analysis
    (lc "Estimated density of the molecule: 1.234 g/cm^3") =
    some [(kVolume, .vdict []), (kDensity, .vstr (lc "1.234")), (kEspRange, .vdict []),
      (kSurfaceArea, .vdict []), (kEspStats, .vdict []), (kPolarity, .vdict []),
      (kSkewness, .vdict []), (kMinima, .vnone)] := rfl

lemma dlookup_dset (d : Dict) (k : LC) (v : PVal) (k' : LC) :
    dlookup (dset d k v) k' = if k = k' then some v else dlookup d k' := by
  induction d with
  | nil =>
    by_cases h : k = k' <;> simp [dset, dlookup, h]
  | cons e rest ih =>
    obtain ⟨k0, v0⟩ := e
    by_cases h0 : k0 = k
    · subst h0
      by_cases h' : k0 = k' <;> simp [dset, dlookup, h']
    · by_cases h' : k0 = k'
      · subst h'
        have hk : ¬ k = k0 := fun h => h0 h.symm
        simp [dset, dlookup, h0, hk]
      · simp [dset, dlookup, h0, h', ih]

lemma keys_dset_of_mem (d : Dict) (k : LC) (v : PVal) (h : k ∈ d.map Prod.fst) :
    (dset d k v).map Prod.fst = d.map Prod.fst := by
  induction d with
  | nil => simp at h
  | cons e rest ih =>
    obtain ⟨k0, v0⟩ := e
    by_cases h0 : k0 = k
    · simp [dset, h0]
    · have hm : k ∈ rest.map Prod.fst := by
        simp only [List.map_cons, List.mem_cons] at h
        exact h.resolve_left fun he => h0 he.symm
      simp [dset, h0, ih hm]

lemma matchStep_some {P : List RItem} {k : LC} {mk : List LC → Option PVal} {t : LC}
    {d d' : Dict} (h : matchStep P k mk t d = some d') :
    (reSearch P t = none ∧ d' = d) ∨
    ∃ caps v, reSearch P t = some caps ∧ mk caps = some v ∧ d' = dset d k v := by
  unfold matchStep at h
  cases hs : reSearch P t with
  | none =>
    rw [hs] at h
    exact Or.inl ⟨rfl, (Option.some.inj h).symm⟩
  | some caps =>
    rw [hs] at h
    simp only [Option.map_eq_some'] at h
    obtain ⟨v, hm, hd⟩ := h
    exact Or.inr ⟨caps, v, rfl, hm, hd.symm⟩

lemma espRangeStep_some {t : LC} {d d' : Dict} (h : espRangeStep t d = some d') :
    ((reSearch espMinPat t = none ∨ reSearch espMaxPat t = none) ∧ d' = d) ∨
    ∃ capsMin capsMax v, reSearch espMinPat t = some capsMin ∧
      reSearch espMaxPat t = some capsMax ∧ espMk capsMin capsMax = some v ∧
      d' = dset d kEspRange v := by
  unfold espRangeStep at h
  cases hs1 : reSearch espMinPat t with
  | none =>
    rw [hs1] at h
    exact Or.inl ⟨Or.inl rfl, (Option.some.inj h).symm⟩
  | some capsMin =>
    rw [hs1] at h
    cases hs2 : reSearch espMaxPat t with
    | none =>
      rw [hs2] at h
      exact Or.inl ⟨Or.inr rfl, (Option.some.inj h).symm⟩
    | some capsMax =>
      rw [hs2] at h
      simp only [Option.map_eq_some'] at h
      obtain ⟨v, hm, hd⟩ := h
      exact Or.inr ⟨capsMin, capsMax, v, rfl, rfl, hm, hd.symm⟩

lemma matchStep_lookup_other {P : List RItem} {k : LC} {mk : List LC → Option PVal}
    {t : LC} {d d' : Dict} (h : matchStep P k mk t d = some d') (k' : LC)
    (hk : ¬ k = k') : dlookup d' k' = dlookup d k' := by
  rcases matchStep_some h with ⟨_, rfl⟩ | ⟨caps, v, _, _, rfl⟩
  · rfl
  · simp [dlookup_dset, hk]

/-- The value a single-pattern block leaves under its key, as a function of
that block's own search only. -/
def fieldOf (P : List RItem) (mk : List LC → Option PVal) (dflt : PVal) (t : LC) :
    Option PVal :=
  match reSearch P t with
  | none => some dflt
  | some caps => mk caps

lemma matchStep_lookup_own {P : List RItem} {k : LC} {mk : List LC → Option PVal}
    {t : LC} {d d' : Dict} (h : matchStep P k mk t d = some d') (dflt : PVal)
    (hd : dlookup d k = some dflt) : dlookup d' k = fieldOf P mk dflt t := by
  rcases matchStep_some h with ⟨hs, rfl⟩ | ⟨caps, v, hs, hm, rfl⟩
  · rw [fieldOf, hs, hd]
  · rw [fieldOf, hs]
    show dlookup (dset d k v) k = mk caps
    rw [hm]
    simp [dlookup_dset]

/-- The ESP-range value as a function of the min and max searches only. -/
def espFieldOf (t : LC) : Option PVal :=
  match reSearch espMinPat t, reSearch espMaxPat t with
  | some capsMin, some capsMax => espMk capsMin capsMax
  | _, _ => some (.vdict [])

lemma espRangeStep_lookup_other {t : LC} {d d' : Dict} (h : espRangeStep t d = some d')
    (k' : LC) (hk : ¬ kEspRange = k') : dlookup d' k' = dlookup d k' := by
  rcases espRangeStep_some h with ⟨_, rfl⟩ | ⟨cm, cx, v, _, _, _, rfl⟩
  · rfl
  · simp [dlookup_dset, hk]

lemma espRangeStep_lookup_own {t : LC} {d d' : Dict} (h : espRangeStep t d = some d')
    (hd : dlookup d kEspRange = some (.vdict [])) :
    dlookup d' kEspRange = espFieldOf t := by
  rcases espRangeStep_some h with ⟨hs, rfl⟩ | ⟨cm, cx, v, hs1, hs2, hm, rfl⟩
  · rcases hs with hs | hs
    · rw [espFieldOf, hs, hd]
    · rw [espFieldOf, hs, hd]
      cases reSearch espMinPat t <;> rfl
  · rw [espFieldOf, hs1, hs2]
    show dlookup (dset d kEspRange v) kEspRange = espMk cm cx
    rw [hm]
    simp [dlookup_dset]

lemma matchStep_keys {P : List RItem} {k : LC} {mk : List LC → Option PVal}
    {t : LC} {d d' : Dict} (h : matchStep P k mk t d = some d')
    (hmem : k ∈ d.map Prod.fst) : d'.map Prod.fst = d.map Prod.fst := by
  rcases matchStep_some h with ⟨_, rfl⟩ | ⟨caps, v, _, _, rfl⟩
  · rfl
  · exact keys_dset_of_mem d k v hmem

lemma espRangeStep_keys {t : LC} {d d' : Dict} (h : espRangeStep t d = some d')
    (hmem : kEspRange ∈ d.map Prod.fst) : d'.map Prod.fst = d.map Prod.fst := by
  rcases espRangeStep_some h with ⟨_, rfl⟩ | ⟨cm, cx, v, _, _, _, rfl⟩
  · rfl
  · exact keys_dset_of_mem d kEspRange v hmem

/-- Lookup of subkey `sk` inside the sub-dictionary stored at `ok`. -/
def innerLookup (d : Dict) (ok sk : LC) : Option PVal :=
  match getSubDict d ok with
  | some sd => dlookup sd sk
  | none => none

lemma innerLookup_congr {d d' : Dict} {ok : LC} (h : dlookup d' ok = dlookup d ok)
    (sk : LC) : innerLookup d' ok sk = innerLookup d ok sk := by
  unfold innerLookup getSubDict
  rw [h]

lemma innerLookup_of_getSubDict {d : Dict} {ok : LC} {sd : Dict}
    (h : getSubDict d ok = some sd) (sk : LC) : innerLookup d ok sk = dlookup sd sk := by
  unfold innerLookup
  rw [h]

lemma innerLookup_dset_self (d : Dict) (ok : LC) (sd2 : Dict) (sk : LC) :
    innerLookup (dset d ok (.vdict sd2)) ok sk = dlookup sd2 sk := by
  unfold innerLookup getSubDict
  rw [dlookup_dset]
  simp

lemma patLoop_lookup_other {ok : LC} {mk : List LC → Option PVal} {t : LC} :
    ∀ {ps : List (LC × List RItem)} {d d' : Dict},
      patLoop ok mk t ps d = some d' → ∀ k', ¬ ok = k' →
      dlookup d' k' = dlookup d k' := by
  intro ps
  induction ps with
  | nil =>
    intro d d' h k' hk
    obtain rfl := Option.some.inj h
    rfl
  | cons kp rest ih =>
    intro d d' h k' hk
    obtain ⟨key, pat⟩ := kp
    unfold patLoop at h
    cases hs : reSearch pat t with
    | none =>
      rw [hs] at h
      exact ih h k' hk
    | some caps =>
      rw [hs] at h
      simp only [bind, Option.bind_eq_some] at h
      obtain ⟨v, hv, h⟩ := h
      obtain ⟨sd, hsd, h⟩ := h
      rw [ih h k' hk, dlookup_dset]
      simp [hk]

lemma patLoop_keys {ok : LC} {mk : List LC → Option PVal} {t : LC} :
    ∀ {ps : List (LC × List RItem)} {d d' : Dict},
      patLoop ok mk t ps d = some d' → ok ∈ d.map Prod.fst →
      d'.map Prod.fst = d.map Prod.fst := by
  intro ps
  induction ps with
  | nil =>
    intro d d' h _
    obtain rfl := Option.some.inj h
    rfl
  | cons kp rest ih =>
    intro d d' h hmem
    obtain ⟨key, pat⟩ := kp
    unfold patLoop at h
    cases hs : reSearch pat t with
    | none =>
      rw [hs] at h
      exact ih h hmem
    | some caps =>
      rw [hs] at h
      simp only [bind, Option.bind_eq_some] at h
      obtain ⟨v, hv, h⟩ := h
      obtain ⟨sd, hsd, h⟩ := h
      have hks := keys_dset_of_mem d ok (.vdict (dset sd key v)) hmem
      rw [ih h (by rw [hks]; exact hmem), hks]

lemma patLoop_unmatched {ok : LC} {mk : List LC → Option PVal} {t : LC} :
    ∀ {ps : List (LC × List RItem)} {d : Dict},
      (∀ kp ∈ ps, reSearch kp.2 t = none) → patLoop ok mk t ps d = some d := by
  intro ps
  induction ps with
  | nil => intro d _; rfl
  | cons kp rest ih =>
    intro d h
    obtain ⟨key, pat⟩ := kp
    unfold patLoop
    rw [h (key, pat) (List.mem_cons_self _ _)]
    exact ih fun kp hkp => h kp (List.mem_cons_of_mem _ hkp)

lemma patLoop_inner_pres {ok : LC} {mk : List LC → Option PVal} {t : LC} :
    ∀ {ps : List (LC × List RItem)} {d d' : Dict},
      patLoop ok mk t ps d = some d' → ∀ sk, sk ∉ ps.map Prod.fst →
      innerLookup d' ok sk = innerLookup d ok sk := by
  intro ps
  induction ps with
  | nil =>
    intro d d' h sk _
    obtain rfl := Option.some.inj h
    rfl
  | cons kp rest ih =>
    intro d d' h sk hsk
    obtain ⟨key, pat⟩ := kp
    have hne : ¬ key = sk := by
      intro he
      exact hsk (by simp [he.symm])
    have hrest : sk ∉ rest.map Prod.fst := by
      intro hm
      exact hsk (by simp [hm])
    unfold patLoop at h
    cases hs : reSearch pat t with
    | none =>
      rw [hs] at h
      exact ih h sk hrest
    | some caps =>
      rw [hs] at h
      simp only [bind, Option.bind_eq_some] at h
      obtain ⟨v, hv, h⟩ := h
      obtain ⟨sd, hsd, h⟩ := h
      rw [ih h sk hrest, innerLookup_dset_self, dlookup_dset]
      simp [hne, innerLookup_of_getSubDict hsd]

lemma patLoop_inner_char {ok : LC} {mk : List LC → Option PVal} {t : LC} :
    ∀ (ps1 : List (LC × List RItem)) (key : LC) (pat : List RItem)
      (ps2 : List (LC × List RItem)) {d d' : Dict},
      key ∉ ps1.map Prod.fst → key ∉ ps2.map Prod.fst →
      patLoop ok mk t (ps1 ++ (key, pat) :: ps2) d = some d' →
      innerLookup d' ok key =
        (match reSearch pat t with
         | none => innerLookup d ok key
         | some caps => mk caps) := by
  intro ps1
  induction ps1 with
  | nil =>
    intro key pat ps2 d d' _ h2 h
    rw [List.nil_append] at h
    unfold patLoop at h
    cases hs : reSearch pat t with
    | none =>
      rw [hs] at h
      exact patLoop_inner_pres h key h2
    | some caps =>
      rw [hs] at h
      simp only [bind, Option.bind_eq_some] at h
      obtain ⟨v, hv, h⟩ := h
      obtain ⟨sd, hsd, h⟩ := h
      rw [patLoop_inner_pres h key h2, innerLookup_dset_self, dlookup_dset]
      simp [hv]
  | cons kp ps1' ih =>
    intro key pat ps2 d d' h1 h2 h
    obtain ⟨k0, p0⟩ := kp
    have hne : ¬ k0 = key := by
      intro he
      exact h1 (by simp [he])
    have h1' : key ∉ ps1'.map Prod.fst := by
      intro hm
      exact h1 (by simp [hm])
    rw [List.cons_append] at h
    unfold patLoop at h
    cases hs : reSearch p0 t with
    | none =>
      rw [hs] at h
      exact ih key pat ps2 h1' h2 h
    | some caps0 =>
      rw [hs] at h
      simp only [bind, Option.bind_eq_some] at h
      obtain ⟨v0, hv0, h⟩ := h
      obtain ⟨sd0, hsd0, h⟩ := h
      rw [ih key pat ps2 h1' h2 h]
      have hinner : innerLookup (dset d ok (.vdict (dset sd0 k0 v0))) ok key =
          innerLookup d ok key := by
        rw [innerLookup_dset_self, dlookup_dset]
        simp [hne, innerLookup_of_getSubDict hsd0]
      cases reSearch pat t with
      | none => exact hinner
      | some caps => rfl

/-- The value stored under a loop subkey, as a function of that subkey's
own search only (`none` both for "never stored" and for a raised error;
under a successful parse the latter cannot occur). -/
def subFieldOf (P : List RItem) (mk : List LC → Option PVal) (t : LC) : Option PVal :=
  match reSearch P t with
  | none => none
  | some caps => mk caps

lemma inner_char_from_none {ok : LC} {mk : List LC → Option PVal} {t : LC}
    (ps1 : List (LC × List RItem)) (key : LC) (pat : List RItem)
    (ps2 : List (LC × List RItem)) {d d' : Dict}
    (h1 : key ∉ ps1.map Prod.fst) (h2 : key ∉ ps2.map Prod.fst)
    (h : patLoop ok mk t (ps1 ++ (key, pat) :: ps2) d = some d')
    (hd : innerLookup d ok key = none) :
    innerLookup d' ok key = subFieldOf pat mk t := by
  rw [patLoop_inner_char ps1 key pat ps2 h1 h2 h]
  unfold subFieldOf
  cases reSearch pat t with
  | none => exact hd
  | some caps => rfl

lemma parse_char (t : LC) (d : Dict) (h : parse_multiwfn_surface_analysis t = some d) :
    d.map Prod.fst = initResults.map Prod.fst
    ∧ dlookup d kVolume = fieldOf volPat volMk (.vdict []) t
    ∧ dlookup d kDensity = fieldOf densPat statMk .vnone t
    ∧ dlookup d kEspRange = espFieldOf t
    ∧ dlookup d kPolarity = fieldOf polarityPat polarityMk (.vdict []) t
    ∧ dlookup d kMinima = fieldOf minimaPat minimaMk .vnone t
    ∧ (∀ key pat, (key, pat) ∈ areaPatterns →
        innerLookup d kSurfaceArea key = subFieldOf pat areaMk t)
    ∧ (∀ key pat, (key, pat) ∈ statsPatterns →
        innerLookup d kEspStats key = subFieldOf pat statMk t)
    ∧ (∀ key pat, (key, pat) ∈ skewPatterns →
        innerLookup d kSkewness key = subFieldOf pat statMk t)
    ∧ ((∀ kp ∈ areaPatterns, reSearch kp.2 t = none) →
        dlookup d kSurfaceArea = some (.vdict []))
    ∧ ((∀ kp ∈ statsPatterns, reSearch kp.2 t = none) →
        dlookup d kEspStats = some (.vdict []))
    ∧ ((∀ kp ∈ skewPatterns, reSearch kp.2 t = none) →
        dlookup d kSkewness = some (.vdict [])) := by
  simp only [parse_multiwfn_surface_analysis, bind] at h
  simp only [Option.bind_eq_some] at h
  obtain ⟨d1, h1, h⟩ := h
  obtain ⟨d2, h2, h⟩ := h
  obtain ⟨d3, h3, h⟩ := h
  obtain ⟨d4, h4, h⟩ := h
  obtain ⟨d5, h5, h⟩ := h
  obtain ⟨d6, h6, h⟩ := h
  obtain ⟨d7, h7, h8⟩ := h
  have hk1 : d1.map Prod.fst = initResults.map Prod.fst :=
    matchStep_keys h1 (by decide)
  have hk2 : d2.map Prod.fst = initResults.map Prod.fst :=
    (matchStep_keys h2 (by rw [hk1]; decide)).trans hk1
  have hk3 : d3.map Prod.fst = initResults.map Prod.fst :=
    (espRangeStep_keys h3 (by rw [hk2]; decide)).trans hk2
  have hk4 : d4.map Prod.fst = initResults.map Prod.fst :=
    (patLoop_keys h4 (by rw [hk3]; decide)).trans hk3
  have hk5 : d5.map Prod.fst = initResults.map Prod.fst :=
    (patLoop_keys h5 (by rw [hk4]; decide)).trans hk4
  have hk6 : d6.map Prod.fst = initResults.map Prod.fst :=
    (matchStep_keys h6 (by rw [hk5]; decide)).trans hk5
  have hk7 : d7.map Prod.fst = initResults.map Prod.fst :=
    (patLoop_keys h7 (by rw [hk6]; decide)).trans hk6
  have hk8 : d.map Prod.fst = initResults.map Prod.fst :=
    (matchStep_keys h8 (by rw [hk7]; decide)).trans hk7
  have hVol : dlookup d kVolume = fieldOf volPat volMk (.vdict []) t := by
    rw [matchStep_lookup_other h8 kVolume (by decide),
        patLoop_lookup_other h7 kVolume (by decide),
        matchStep_lookup_other h6 kVolume (by decide),
        patLoop_lookup_other h5 kVolume (by decide),
        patLoop_lookup_other h4 kVolume (by decide),
        espRangeStep_lookup_other h3 kVolume (by decide),
        matchStep_lookup_other h2 kVolume (by decide)]
    exact matchStep_lookup_own h1 (.vdict []) rfl
  have hDen : dlookup d kDensity = fieldOf densPat statMk .vnone t := by
    rw [matchStep_lookup_other h8 kDensity (by decide),
        patLoop_lookup_other h7 kDensity (by decide),
        matchStep_lookup_other h6 kDensity (by decide),
        patLoop_lookup_other h5 kDensity (by decide),
        patLoop_lookup_other h4 kDensity (by decide),
        espRangeStep_lookup_other h3 kDensity (by decide)]
    exact matchStep_lookup_own h2 .vnone
      ((matchStep_lookup_other h1 kDensity (by decide)).trans rfl)
  have hEsp : dlookup d kEspRange = espFieldOf t := by
    rw [matchStep_lookup_other h8 kEspRange (by decide),
        patLoop_lookup_other h7 kEspRange (by decide),
        matchStep_lookup_other h6 kEspRange (by decide),
        patLoop_lookup_other h5 kEspRange (by decide),
        patLoop_lookup_other h4 kEspRange (by decide)]
    exact espRangeStep_lookup_own h3
      (((matchStep_lookup_other h2 kEspRange (by decide)).trans
        (matchStep_lookup_other h1 kEspRange (by decide))).trans rfl)
  have hPol : dlookup d kPolarity = fieldOf polarityPat polarityMk (.vdict []) t := by
    rw [matchStep_lookup_other h8 kPolarity (by decide),
        patLoop_lookup_other h7 kPolarity (by decide)]
    refine matchStep_lookup_own h6 (.vdict []) ?_
    rw [patLoop_lookup_other h5 kPolarity (by decide),
        patLoop_lookup_other h4 kPolarity (by decide),
        espRangeStep_lookup_other h3 kPolarity (by decide),
        matchStep_lookup_other h2 kPolarity (by decide),
        matchStep_lookup_other h1 kPolarity (by decide)]
    rfl
  have hMin : dlookup d kMinima = fieldOf minimaPat minimaMk .vnone t := by
    refine matchStep_lookup_own h8 .vnone ?_
    rw [patLoop_lookup_other h7 kMinima (by decide),
        matchStep_lookup_other h6 kMinima (by decide),
        patLoop_lookup_other h5 kMinima (by decide),
        patLoop_lookup_other h4 kMinima (by decide),
        espRangeStep_lookup_other h3 kMinima (by decide),
        matchStep_lookup_other h2 kMinima (by decide),
        matchStep_lookup_other h1 kMinima (by decide)]
    rfl
  have hpreSurf : dlookup d3 kSurfaceArea = some (.vdict []) := by
    rw [espRangeStep_lookup_other h3 kSurfaceArea (by decide),
        matchStep_lookup_other h2 kSurfaceArea (by decide),
        matchStep_lookup_other h1 kSurfaceArea (by decide)]
    rfl
  have hinSurf : ∀ key : LC, innerLookup d3 kSurfaceArea key = none := by
    intro key
    have hg : getSubDict d3 kSurfaceArea = some [] := by
      unfold getSubDict
      rw [hpreSurf]
    rw [innerLookup_of_getSubDict hg]
    rfl
  have hpostSurf : ∀ key : LC,
      innerLookup d kSurfaceArea key = innerLookup d4 kSurfaceArea key := by
    intro key
    rw [innerLookup_congr (matchStep_lookup_other h8 kSurfaceArea (by decide)) key,
        innerLookup_congr (patLoop_lookup_other h7 kSurfaceArea (by decide)) key,
        innerLookup_congr (matchStep_lookup_other h6 kSurfaceArea (by decide)) key,
        innerLookup_congr (patLoop_lookup_other h5 kSurfaceArea (by decide)) key]
  have hSurf : ∀ key pat, (key, pat) ∈ areaPatterns →
      innerLookup d kSurfaceArea key = subFieldOf pat areaMk t := by
    intro key pat hmem
    rw [hpostSurf key]
    rcases (by simpa [areaPatterns] using hmem :
        (key = lc "total" ∧ pat = areaTotPat) ∨
        (key = lc "positive" ∧ pat = areaPosPat) ∨
        (key = lc "negative" ∧ pat = areaNegPat)) with hc | hc | hc
    all_goals obtain ⟨rfl, rfl⟩ := hc
    · exact inner_char_from_none [] (lc "total") areaTotPat
        [(lc "positive", areaPosPat), (lc "negative", areaNegPat)]
        (by decide) (by decide) h4 (hinSurf _)
    · exact inner_char_from_none [(lc "total", areaTotPat)] (lc "positive") areaPosPat
        [(lc "negative", areaNegPat)] (by decide) (by decide) h4 (hinSurf _)
    · exact inner_char_from_none
        [(lc "total", areaTotPat), (lc "positive", areaPosPat)] (lc "negative")
        areaNegPat [] (by decide) (by decide) h4 (hinSurf _)
  have hSurfNone : (∀ kp ∈ areaPatterns, reSearch kp.2 t = none) →
      dlookup d kSurfaceArea = some (.vdict []) := by
    intro hall
    have hd43 : d4 = d3 := Option.some.inj (h4.symm.trans (patLoop_unmatched hall))
    rw [matchStep_lookup_other h8 kSurfaceArea (by decide),
        patLoop_lookup_other h7 kSurfaceArea (by decide),
        matchStep_lookup_other h6 kSurfaceArea (by decide),
        patLoop_lookup_other h5 kSurfaceArea (by decide), hd43]
    exact hpreSurf
  have hpreStats : dlookup d4 kEspStats = some (.vdict []) := by
    rw [patLoop_lookup_other h4 kEspStats (by decide),
        espRangeStep_lookup_other h3 kEspStats (by decide),
        matchStep_lookup_other h2 kEspStats (by decide),
        matchStep_lookup_other h1 kEspStats (by decide)]
    rfl
  have hinStats : ∀ key : LC, innerLookup d4 kEspStats key = none := by
    intro key
    have hg : getSubDict d4 kEspStats = some [] := by
      unfold getSubDict
      rw [hpreStats]
    rw [innerLookup_of_getSubDict hg]
    rfl
  have hpostStats : ∀ key : LC,
      innerLookup d kEspStats key = innerLookup d5 kEspStats key := by
    intro key
    rw [innerLookup_congr (matchStep_lookup_other h8 kEspStats (by decide)) key,
        innerLookup_congr (patLoop_lookup_other h7 kEspStats (by decide)) key,
        innerLookup_congr (matchStep_lookup_other h6 kEspStats (by decide)) key]
  have hStats : ∀ key pat, (key, pat) ∈ statsPatterns →
      innerLookup d kEspStats key = subFieldOf pat statMk t := by
    intro key pat hmem
    rw [hpostStats key]
    rcases (by simpa [statsPatterns] using hmem :
        (key = lc "overall_avg" ∧ pat = overallAvgPat) ∨
        (key = lc "positive_avg" ∧ pat = positiveAvgPat) ∨
        (key = lc "negative_avg" ∧ pat = negativeAvgPat) ∨
        (key = lc "total_variance" ∧ pat = totalVarPat) ∨
        (key = lc "positive_variance" ∧ pat = positiveVarPat) ∨
        (key = lc "negative_variance" ∧ pat = negativeVarPat) ∨
        (key = lc "charge_balance" ∧ pat = chargeBalancePat) ∨
        (key = lc "internal_separation" ∧ pat = internalSepPat) ∨
        (key = lc "molecular_polarity" ∧ pat = molPolarityPat)) with hc | hc | hc | hc | hc | hc | hc | hc | hc
    all_goals obtain ⟨rfl, rfl⟩ := hc
    · exact inner_char_from_none [] (lc "overall_avg") overallAvgPat
        [(lc "positive_avg", positiveAvgPat), (lc "negative_avg", negativeAvgPat), (lc "total_variance", totalVarPat), (lc "positive_variance", positiveVarPat), (lc "negative_variance", negativeVarPat), (lc "charge_balance", chargeBalancePat), (lc "internal_separation", internalSepPat), (lc "molecular_polarity", molPolarityPat)] (by decide) (by decide) h5 (hinStats _)
    · exact inner_char_from_none [(lc "overall_avg", overallAvgPat)] (lc "positive_avg") positiveAvgPat
        [(lc "negative_avg", negativeAvgPat), (lc "total_variance", totalVarPat), (lc "positive_variance", positiveVarPat), (lc "negative_variance", negativeVarPat), (lc "charge_balance", chargeBalancePat), (lc "internal_separation", internalSepPat), (lc "molecular_polarity", molPolarityPat)] (by decide) (by decide) h5 (hinStats _)
    · exact inner_char_from_none [(lc "overall_avg", overallAvgPat), (lc "positive_avg", positiveAvgPat)] (lc "negative_avg") negativeAvgPat
        [(lc "total_variance", totalVarPat), (lc "positive_variance", positiveVarPat), (lc "negative_variance", negativeVarPat), (lc "charge_balance", chargeBalancePat), (lc "internal_separation", internalSepPat), (lc "molecular_polarity", molPolarityPat)] (by decide) (by decide) h5 (hinStats _)
    · exact inner_char_from_none [(lc "overall_avg", overallAvgPat), (lc "positive_avg", positiveAvgPat), (lc "negative_avg", negativeAvgPat)] (lc "total_variance") totalVarPat
        [(lc "positive_variance", positiveVarPat), (lc "negative_variance", negativeVarPat), (lc "charge_balance", chargeBalancePat), (lc "internal_separation", internalSepPat), (lc "molecular_polarity", molPolarityPat)] (by decide) (by decide) h5 (hinStats _)
    · exact inner_char_from_none [(lc "overall_avg", overallAvgPat), (lc "positive_avg", positiveAvgPat), (lc "negative_avg", negativeAvgPat), (lc "total_variance", totalVarPat)] (lc "positive_variance") positiveVarPat
        [(lc "negative_variance", negativeVarPat), (lc "charge_balance", chargeBalancePat), (lc "internal_separation", internalSepPat), (lc "molecular_polarity", molPolarityPat)] (by decide) (by decide) h5 (hinStats _)
    · exact inner_char_from_none [(lc "overall_avg", overallAvgPat), (lc "positive_avg", positiveAvgPat), (lc "negative_avg", negativeAvgPat), (lc "total_variance", totalVarPat), (lc "positive_variance", positiveVarPat)] (lc "negative_variance") negativeVarPat
        [(lc "charge_balance", chargeBalancePat), (lc "internal_separation", internalSepPat), (lc "molecular_polarity", molPolarityPat)] (by decide) (by decide) h5 (hinStats _)
    · exact inner_char_from_none [(lc "overall_avg", overallAvgPat), (lc "positive_avg", positiveAvgPat), (lc "negative_avg", negativeAvgPat), (lc "total_variance", totalVarPat), (lc "positive_variance", positiveVarPat), (lc "negative_variance", negativeVarPat)] (lc "charge_balance") chargeBalancePat
        [(lc "internal_separation", internalSepPat), (lc "molecular_polarity", molPolarityPat)] (by decide) (by decide) h5 (hinStats _)
    · exact inner_char_from_none [(lc "overall_avg", overallAvgPat), (lc "positive_avg", positiveAvgPat), (lc "negative_avg", negativeAvgPat), (lc "total_variance", totalVarPat), (lc "positive_variance", positiveVarPat), (lc "negative_variance", negativeVarPat), (lc "charge_balance", chargeBalancePat)] (lc "internal_separation") internalSepPat
        [(lc "molecular_polarity", molPolarityPat)] (by decide) (by decide) h5 (hinStats _)
    · exact inner_char_from_none [(lc "overall_avg", overallAvgPat), (lc "positive_avg", positiveAvgPat), (lc "negative_avg", negativeAvgPat), (lc "total_variance", totalVarPat), (lc "positive_variance", positiveVarPat), (lc "negative_variance", negativeVarPat), (lc "charge_balance", chargeBalancePat), (lc "internal_separation", internalSepPat)] (lc "molecular_polarity") molPolarityPat
        [] (by decide) (by decide) h5 (hinStats _)
  have hStatsNone : (∀ kp ∈ statsPatterns, reSearch kp.2 t = none) →
      dlookup d kEspStats = some (.vdict []) := by
    intro hall
    have hd54 : d5 = d4 := Option.some.inj (h5.symm.trans (patLoop_unmatched hall))
    rw [matchStep_lookup_other h8 kEspStats (by decide),
        patLoop_lookup_other h7 kEspStats (by decide),
        matchStep_lookup_other h6 kEspStats (by decide), hd54]
    exact hpreStats
  have hpreSkew : dlookup d6 kSkewness = some (.vdict []) := by
    rw [matchStep_lookup_other h6 kSkewness (by decide),
        patLoop_lookup_other h5 kSkewness (by decide),
        patLoop_lookup_other h4 kSkewness (by decide),
        espRangeStep_lookup_other h3 kSkewness (by decide),
        matchStep_lookup_other h2 kSkewness (by decide),
        matchStep_lookup_other h1 kSkewness (by decide)]
    rfl
  have hinSkew : ∀ key : LC, innerLookup d6 kSkewness key = none := by
    intro key
    have hg : getSubDict d6 kSkewness = some [] := by
      unfold getSubDict
      rw [hpreSkew]
    rw [innerLookup_of_getSubDict hg]
    rfl
  have hpostSkew : ∀ key : LC,
      innerLookup d kSkewness key = innerLookup d7 kSkewness key := by
    intro key
    rw [innerLookup_congr (matchStep_lookup_other h8 kSkewness (by decide)) key]
  have hSkew : ∀ key pat, (key, pat) ∈ skewPatterns →
      innerLookup d kSkewness key = subFieldOf pat statMk t := by
    intro key pat hmem
    rw [hpostSkew key]
    rcases (by simpa [skewPatterns] using hmem :
        (key = lc "overall" ∧ pat = skewOverallPat) ∨
        (key = lc "positive" ∧ pat = skewPositivePat) ∨
        (key = lc "negative" ∧ pat = skewNegativePat)) with hc | hc | hc
    all_goals obtain ⟨rfl, rfl⟩ := hc
    · exact inner_char_from_none [] (lc "overall") skewOverallPat
        [(lc "positive", skewPositivePat), (lc "negative", skewNegativePat)] (by decide) (by decide) h7 (hinSkew _)
    · exact inner_char_from_none [(lc "overall", skewOverallPat)] (lc "positive") skewPositivePat
        [(lc "negative", skewNegativePat)] (by decide) (by decide) h7 (hinSkew _)
    · exact inner_char_from_none [(lc "overall", skewOverallPat), (lc "positive", skewPositivePat)] (lc "negative") skewNegativePat
        [] (by decide) (by decide) h7 (hinSkew _)
  have hSkewNone : (∀ kp ∈ skewPatterns, reSearch kp.2 t = none) →
      dlookup d kSkewness = some (.vdict []) := by
    intro hall
    have hd76 : d7 = d6 := Option.some.inj (h7.symm.trans (patLoop_unmatched hall))
    rw [matchStep_lookup_other h8 kSkewness (by decide), hd76]
    exact hpreSkew
  exact ⟨hk8, hVol, hDen, hEsp, hPol, hMin, hSurf, hStats, hSkew, hSurfNone, hStatsNone,
    hSkewNone⟩

/-- Claim C9 as stated: every input text yields a returned mapping (with
the eight fixed keys). -/
def claimC9 : Prop := ∀ t : LC, ∃ d : Dict,
  parse_multiwfn_surface_analysis t = some d ∧
  d.map Prod.fst = initResults.map Prod.fst

/-- C9: the claim fails on the code.  On the text
`"Estimated density is . g/cm^3"` the density pattern matches with captured
token `"."`, `float(".")` raises `ValueError`, and the function raises
instead of returning a mapping. -/
theorem C9_counterexample : ¬ claimC9 := by
  intro h
  obtain ⟨d, hd, _⟩ := h (lc "Estimated density is . g/cm^3")
  rw [show parse_multiwfn_surface_analysis (lc "Estimated density is . g/cm^3") = none
    from rfl] at hd
  exact Option.noConfusion hd

/-- C9 (amended): whenever `parse_multiwfn_surface_analysis` returns (no
captured token fails float conversion), the mapping has exactly the eight
fixed top-level keys in their fixed order; a group none of whose patterns
matched is still present as an empty mapping (or `None` for density and
minima; for the ESP range, failure of either the min or the max pattern
leaves the group empty), and no key is ever added or removed. -/
theorem C9_fixed_keys (t : LC) (d : Dict)
    (h : parse_multiwfn_surface_analysis t = some d) :
    d.map Prod.fst = [kVolume, kDensity, kEspRange, kSurfaceArea, kEspStats,
      kPolarity, kSkewness, kMinima]
    ∧ (reSearch volPat t = none → dlookup d kVolume = some (.vdict []))
    ∧ (reSearch densPat t = none → dlookup d kDensity = some .vnone)
    ∧ ((reSearch espMinPat t = none ∨ reSearch espMaxPat t = none) →
        dlookup d kEspRange = some (.vdict []))
    ∧ ((∀ kp ∈ areaPatterns, reSearch kp.2 t = none) →
        dlookup d kSurfaceArea = some (.vdict []))
    ∧ ((∀ kp ∈ statsPatterns, reSearch kp.2 t = none) →
        dlookup d kEspStats = some (.vdict []))
    ∧ (reSearch polarityPat t = none → dlookup d kPolarity = some (.vdict []))
    ∧ ((∀ kp ∈ skewPatterns, reSearch kp.2 t = none) →
        dlookup d kSkewness = some (.vdict []))
    ∧ (reSearch minimaPat t = none → dlookup d kMinima = some .vnone) := by
  obtain ⟨hk, hVol, hDen, hEsp, hPol, hMin, _, _, _, hSurfN, hStatsN, hSkewN⟩ :=
    parse_char t d h
  refine ⟨hk, ?_, ?_, ?_, hSurfN, hStatsN, ?_, hSkewN, ?_⟩
  · intro hn
    rw [hVol]
    unfold fieldOf
    rw [hn]
  · intro hn
    rw [hDen]
    unfold fieldOf
    rw [hn]
  · intro hor
    rw [hEsp]
    unfold espFieldOf
    rcases hor with hn | hn
    · rw [hn]
    · rw [hn]
      cases reSearch espMinPat t <;> rfl
  · intro hn
    rw [hPol]
    unfold fieldOf
    rw [hn]
  · intro hn
    rw [hMin]
    unfold fieldOf
    rw [hn]

theorem C9_fixed_keys_witness :
    initResults.map Prod.fst = [kVolume, kDensity, kEspRange, kSurfaceArea, kEspStats,
      kPolarity, kSkewness, kMinima]
    ∧ dlookup initResults kEspRange = some (.vdict []) :=
  have h := C9_fixed_keys (lc "Minimal value: 1.0 kcal/mol") initResults rfl
  ⟨h.1, h.2.2.2.1 (Or.inr rfl)⟩

/-- Is a group (an inner dictionary) present with at least one entry? -/
def groupPresent : Option PVal → Bool
  | some (.vdict (_ :: _)) => true
  | _ => false

/-- Claim C3 as stated, at its own "in particular" instance: presence of
the ESP-range group in the result depends only on the ESP-range minimum
pattern's own match. -/
def claimC3 : Prop := ∀ t t' : LC, ∀ d d' : Dict,
  parse_multiwfn_surface_analysis t = some d →
  parse_multiwfn_surface_analysis t' = some d' →
  reSearch espMinPat t = reSearch espMinPat t' →
  groupPresent (dlookup d kEspRange) = groupPresent (dlookup d' kEspRange)

/-- C3: the claim fails on the code.  Two texts on which the ESP-minimum
pattern matches identically — one without and one with a `Maximal value`
line — give different ESP-range presence, because the source populates the
group only when both patterns match. -/
theorem C3_counterexample : ¬ claimC3 := by
  intro h
  have h2 := h (lc "Minimal value: 1.0 kcal/mol")
      (lc "Minimal value: 1.0 kcal/mol\nMaximal value: 2.0 kcal/mol")
      initResults
      [(kVolume, .vdict []), (kDensity, .vnone),
       (kEspRange, .vdict [(lc "min_kcal/mol", .vstr (lc "1.0")),
         (lc "max_kcal/mol", .vstr (lc "2.0"))]),
       (kSurfaceArea, .vdict []), (kEspStats, .vdict []), (kPolarity, .vdict []),
       (kSkewness, .vdict []), (kMinima, .vnone)]
      rfl rfl rfl
  exact absurd h2 (by decide)

lemma dlookup_isSome_of_mem (d : Dict) (k : LC) (h : k ∈ d.map Prod.fst) :
    (dlookup d k).isSome = true := by
  induction d with
  | nil => simp at h
  | cons e rest ih =>
    obtain ⟨k0, v0⟩ := e
    by_cases h0 : k0 = k
    · simp [dlookup, h0]
    · have : k ∈ rest.map Prod.fst := by
        simp only [List.map_cons, List.mem_cons] at h
        exact h.resolve_left fun he => h0 he.symm
      simp [dlookup, h0, ih this]

lemma espMk_present {capsMin capsMax : List LC} {v : PVal}
    (h : espMk capsMin capsMax = some v) : groupPresent (some v) = true := by
  simp only [espMk, bind, Option.bind_eq_some] at h
  obtain ⟨g1, hg1, h⟩ := h
  obtain ⟨v1, hv1, h⟩ := h
  obtain ⟨g2, hg2, h⟩ := h
  obtain ⟨v2, hv2, h⟩ := h
  obtain rfl := Option.some.inj h
  rfl

lemma patLoop_congr {ok : LC} {mk : List LC → Option PVal} {t t' : LC} :
    ∀ {ps : List (LC × List RItem)},
      (∀ kp ∈ ps, reSearch kp.2 t = reSearch kp.2 t') →
      ∀ d, patLoop ok mk t ps d = patLoop ok mk t' ps d := by
  intro ps
  induction ps with
  | nil => intro _ d; rfl
  | cons kp rest ih =>
    intro hag d
    obtain ⟨key, pat⟩ := kp
    unfold patLoop
    rw [hag (key, pat) (List.mem_cons_self _ _)]
    cases reSearch pat t' with
    | none => exact ih (fun kp h => hag kp (List.mem_cons_of_mem _ h)) d
    | some caps =>
      simp only [bind]
      cases mk caps with
      | none => rfl
      | some v =>
        cases getSubDict d ok with
        | none => rfl
        | some sd =>
          exact ih (fun kp h => hag kp (List.mem_cons_of_mem _ h)) _

/-- C3 (amended): each pattern is evaluated once against the whole text,
first match only; whenever the function returns, every field and group is a
function of its own pattern's match alone — except the ESP-range group,
which is present if and only if both the min and the max pattern matched —
and the whole result is a function of the tuple of per-pattern match
results. -/
theorem C3_pattern_independence :
    (∀ t d, parse_multiwfn_surface_analysis t = some d →
      dlookup d kVolume = fieldOf volPat volMk (.vdict []) t
      ∧ dlookup d kDensity = fieldOf densPat statMk .vnone t
      ∧ dlookup d kEspRange = espFieldOf t
      ∧ dlookup d kPolarity = fieldOf polarityPat polarityMk (.vdict []) t
      ∧ dlookup d kMinima = fieldOf minimaPat minimaMk .vnone t
      ∧ (∀ key pat, (key, pat) ∈ areaPatterns →
          innerLookup d kSurfaceArea key = subFieldOf pat areaMk t)
      ∧ (∀ key pat, (key, pat) ∈ statsPatterns →
          innerLookup d kEspStats key = subFieldOf pat statMk t)
      ∧ (∀ key pat, (key, pat) ∈ skewPatterns →
          innerLookup d kSkewness key = subFieldOf pat statMk t)
      ∧ (groupPresent (dlookup d kEspRange) = true ↔
          (reSearch espMinPat t).isSome = true ∧ (reSearch espMaxPat t).isSome = true))
    ∧ (∀ t t',
        reSearch volPat t = reSearch volPat t' →
        reSearch densPat t = reSearch densPat t' →
        reSearch espMinPat t = reSearch espMinPat t' →
        reSearch espMaxPat t = reSearch espMaxPat t' →
        (∀ kp ∈ areaPatterns, reSearch kp.2 t = reSearch kp.2 t') →
        (∀ kp ∈ statsPatterns, reSearch kp.2 t = reSearch kp.2 t') →
        reSearch polarityPat t = reSearch polarityPat t' →
        (∀ kp ∈ skewPatterns, reSearch kp.2 t = reSearch kp.2 t') →
        reSearch minimaPat t = reSearch minimaPat t' →
        parse_multiwfn_surface_analysis t = parse_multiwfn_surface_analysis t') := by
  constructor
  · intro t d h
    obtain ⟨hk, hVol, hDen, hEsp, hPol, hMin, hSurf, hStats, hSkew, _, _, _⟩ :=
      parse_char t d h
    refine ⟨hVol, hDen, hEsp, hPol, hMin, hSurf, hStats, hSkew, ?_⟩
    have hmem : kEspRange ∈ d.map Prod.fst := by rw [hk]; decide
    have hsome := dlookup_isSome_of_mem d kEspRange hmem
    rw [hEsp] at hsome ⊢
    unfold espFieldOf at hsome ⊢
    cases hs1 : reSearch espMinPat t with
    | none =>
      clear hsome
      cases hs2 : reSearch espMaxPat t with
      | none =>
        show groupPresent (some (PVal.vdict [])) = true ↔
          (none : Option (List LC)).isSome = true ∧
          (none : Option (List LC)).isSome = true
        exact iff_of_false (by decide) (fun hc => by simp at hc)
      | some cx =>
        show groupPresent (some (PVal.vdict [])) = true ↔
          (none : Option (List LC)).isSome = true ∧ (some cx).isSome = true
        exact iff_of_false (by decide) (fun hc => by simp at hc)
    | some cm =>
      cases hs2 : reSearch espMaxPat t with
      | none =>
        clear hsome
        show groupPresent (some (PVal.vdict [])) = true ↔
          (some cm).isSome = true ∧ (none : Option (List LC)).isSome = true
        exact iff_of_false (by decide) (fun hc => by simp at hc)
      | some cx =>
        have hsome2 : (espMk cm cx).isSome = true := by
          rw [hs1, hs2] at hsome
          exact hsome
        obtain ⟨v, hv⟩ := Option.isSome_iff_exists.1 hsome2
        show groupPresent (espMk cm cx) = true ↔
          (some cm).isSome = true ∧ (some cx).isSome = true
        rw [hv]
        exact iff_of_true (espMk_present hv) ⟨rfl, rfl⟩
  · intro t t' h1 h2 h3 h4 h5 h6 h7 h8 h9
    have e1 : matchStep volPat kVolume volMk t = matchStep volPat kVolume volMk t' :=
      funext fun d => by unfold matchStep; rw [h1]
    have e2 : matchStep densPat kDensity statMk t = matchStep densPat kDensity statMk t' :=
      funext fun d => by unfold matchStep; rw [h2]
    have e3 : espRangeStep t = espRangeStep t' :=
      funext fun d => by unfold espRangeStep; rw [h3, h4]
    have e4 : patLoop kSurfaceArea areaMk t areaPatterns =
        patLoop kSurfaceArea areaMk t' areaPatterns :=
      funext (patLoop_congr h5)
    have e5 : patLoop kEspStats statMk t statsPatterns =
        patLoop kEspStats statMk t' statsPatterns :=
      funext (patLoop_congr h6)
    have e6 : matchStep polarityPat kPolarity polarityMk t =
        matchStep polarityPat kPolarity polarityMk t' :=
      funext fun d => by unfold matchStep; rw [h7]
    have e7 : patLoop kSkewness statMk t skewPatterns =
        patLoop kSkewness statMk t' skewPatterns :=
      funext (patLoop_congr h8)
    have e8 : matchStep minimaPat kMinima minimaMk t =
        matchStep minimaPat kMinima minimaMk t' :=
      funext fun d => by unfold matchStep; rw [h9]
    simp only [parse_multiwfn_surface_analysis, e1, e2, e3, e4, e5, e6, e7, e8]

theorem C3_pattern_independence_witness :
    dlookup initResults kVolume =
      fieldOf volPat volMk (.vdict []) (lc "Minimal value: 1.0 kcal/mol")
    ∧ parse_multiwfn_surface_analysis (lc "nothing matches here") =
        parse_multiwfn_surface_analysis (lc "nothing here either") :=
  ⟨(C3_pattern_independence.1 (lc "Minimal value: 1.0 kcal/mol") initResults rfl).1,
   C3_pattern_independence.2 (lc "nothing matches here") (lc "nothing here either")
     rfl rfl rfl rfl (by decide) (by decide) rfl (by decide) rfl⟩

theorem C2_homo_lumo_witness :
    [lc "-1.0", lc "-0.9", lc "-0.8", lc "-0.7", lc "-0.6", lc "-0.5", lc "-0.4",
      lc "-0.3", lc "-0.2", lc "-0.1", lc "0.1", lc "0.2"].get?
      (Int.ediv (10 : ℤ) 2 - 1).toNat = some (lc "-0.6") ∧
    [lc "-1.0", lc "-0.9", lc "-0.8", lc "-0.7", lc "-0.6", lc "-0.5", lc "-0.4",
      lc "-0.3", lc "-0.2", lc "-0.1", lc "0.1", lc "0.2"].get?
      (Int.ediv (10 : ℤ) 2).toNat = some (lc "-0.5") :=
  C2_homo_lumo
    [lc "Total Energy                               R     -1.5",
     lc "Number of electrons                        I       10",
     lc "Alpha Orbital Energies                     R   N=          12",
     lc "-1.0 -0.9 -0.8 -0.7 -0.6", lc "-0.5 -0.4 -0.3 -0.2 -0.1", lc "0.1 0.2"]
    ⟨some (lc "-1.5"), 10, lc "-0.6", lc "-0.5"⟩
    [lc "-1.0", lc "-0.9", lc "-0.8", lc "-0.7", lc "-0.6", lc "-0.5", lc "-0.4",
      lc "-0.3", lc "-0.2", lc "-0.1", lc "0.1", lc "0.2"]
    (by decide) (by decide) (by decide) (by decide) (by decide)
